import Mathlib

/-!
# Verification of the gpt-cli agent reply interpreter

Shallow embedding of the agent-mode reply interpreter of `bduffany/gpt-cli`
(`internal/auto/auto.go`) and of the confirmation and write-command logic it
uses (`internal/chat/chat.go`), together with theorems settling the frozen
claims about it.

Bytes are modelled as `Nat` (the Go code only ever compares bytes against
fixed ASCII values), Go strings that are treated as rune sequences by the
code (`strings.TrimSpace`, `strconv.Quote`) are modelled as `List Char`, and
Go byte buffers / byte strings as `List Nat`.
-/

/-- Bytes of an ASCII string literal (all literals used here are ASCII, where
Go's UTF-8 bytes coincide with the code points). -/
def strBytes (s : String) : List Nat := s.data.map Char.toNat

/-- The prompt decoration `"\x1b[90mgpt>\x1b[m "` written to the display
(`aiPS1` in auto.go). -/
def aiPS1 : List Nat := [27, 91, 57, 48, 109, 103, 112, 116, 62, 27, 91, 109, 32]

/-- Parse state of one in-flight reply (`ReplyHandler` in auto.go).

* `comment`, `parsedArgs`, `args`, `buf` mirror the Go fields directly.
* `cmd` records the name of the matched command (`h.cmd.Spec.Cmd`); `none`
  models the nil pointer.
* `cmdArgs` records the argument list handed to the started command
  (`h.cmd.args`, i.e. `h.args[1:]` at dispatch time).
* `body` accumulates the bytes written to the command's body pipe
  (`h.pw.Write`), and `bodyClosed` whether `h.pw.Close()` has been called.
* `display` accumulates every byte written to `h.chat.Display`.
-/
@[ext]
structure ReplyHandler where
  comment : List Nat
  parsedArgs : Bool
  args : List (List Nat)
  buf : List Nat
  cmd : Option (List Nat)
  cmdArgs : List (List Nat)
  body : List Nat
  bodyClosed : Bool
  display : List Nat
deriving DecidableEq

/-- The three recoverable errors produced by `ReplyHandler.consume`
(all returned as `*FixableError` in auto.go):
* `unexpectedInput b` — `fmt.Errorf("unexpected input %q", string(b))`, the
  spec's `FormatError`; `b` is the whole buffered input at failure time;
* `invalidCommand name` — `fmt.Errorf("invalid command %q", h.args[0])`, the
  spec's `UnknownCommandError`;
* `failedToParse` — `fmt.Errorf("failed to parse command")`, the spec's
  `DispatchError`. -/
inductive AutoError where
  | unexpectedInput (buffered : List Nat)
  | invalidCommand (name : List Nat)
  | failedToParse
deriving DecidableEq

deriving instance DecidableEq for Except

/-- A registered command (`CommandSpec` in auto.go).  The handler function
`Run` performs external I/O and is modelled separately (`runWrite` below for
the write command); dispatch only depends on `Cmd`. -/
structure CommandSpec where
  cmd : List Nat
  argsHint : String
  desc : String
deriving DecidableEq

/-- The fixed command registry (`availableCommands` in auto.go), in source
order: prompt, cat, ls, write, curl. -/
def availableCommands : List CommandSpec :=
  [ { cmd := strBytes ("prompt"), argsHint := "",
      desc := "Requests the user for the next prompt and returns the result." },
    { cmd := strBytes ("cat"), argsHint := "FILES ...",
      desc := "Returns the concatenated contents of one or more files." },
    { cmd := strBytes ("ls"), argsHint := "PATH ...",
      desc := "Runs ls -la on the given paths and returns the result." },
    { cmd := strBytes ("write"), argsHint := "PATH",
      desc := "Writes a file with permissions 0644. For this command only, you are allowed to provide additional output on the lines following the command. Any additional lines are written to the file." },
    { cmd := strBytes ("curl"), argsHint := "URL",
      desc := "Issue an HTTP GET request. You can use this for things like searching google or requesting from https://api.github.com. The first line will contain the response code. Next a blank line. Following that, the HTTP response body." } ]

/-- Index of the first `'\n'` byte (`bytes.Index(b, []byte{'\n'})` in the
comment phase of `consume`). -/
def findNL : List Nat → Option Nat
  | [] => none
  | b :: rest => if b = 10 then some 0 else (findNL rest).map (fun i => i + 1)

/-- First index holding a space or newline, together with whether it is a
newline (the token-phase scan `for i := range b` in `consume`). -/
def findDelim : List Nat → Option (Nat × Bool)
  | [] => none
  | b :: rest =>
    if b = 10 then some (0, true)
    else if b = 32 then some (0, false)
    else
      match findDelim rest with
      | some (i, nl) => some (i + 1, nl)
      | none => none

/-- `strings.HasSuffix(h.comment, "\n")`. -/
def endsNL : List Nat → Bool
  | [] => false
  | [b] => b == 10
  | _ :: b :: rest => endsNL (b :: rest)

/-- The `for h.buf.Len() > 0 && !h.parsedArgs` loop of `ReplyHandler.consume`
(auto.go lines 135-182): comment accumulation, then tokenization.  Each
branch mirrors one loop iteration; branches that leave the buffer empty
return directly (the Go loop then exits on `h.buf.Len() > 0`). -/
def consumeLoop (finalize : Bool) (h : ReplyHandler) : Except AutoError ReplyHandler :=
  if hb : h.buf = [] then .ok h
  else if h.parsedArgs = true then .ok h
  else if h.comment = [] ∧ h.buf.headD 0 ≠ 35 then .error (.unexpectedInput h.buf)
  else if endsNL h.comment = false then
    -- comment phase: consume until newline, mirroring to the display
    match findNL h.buf with
    | some i =>
      consumeLoop finalize { h with
        comment := h.comment ++ h.buf.take (i + 1),
        display := h.display ++ h.buf.take (i + 1) ++ aiPS1,
        buf := h.buf.drop (i + 1) }
    | none =>
      .ok { h with
        comment := h.comment ++ h.buf,
        display := h.display ++ h.buf,
        buf := [] }
  else
    -- token phase: split on space (end of arg) or newline (end of command)
    match findDelim h.buf with
    | some (i, nl) =>
      consumeLoop finalize { h with
        parsedArgs := nl,
        args := h.args ++ [h.buf.take i],
        display := h.display ++ h.buf.take (i + 1),
        buf := h.buf.drop (i + 1) }
    | none =>
      if finalize then
        .ok { h with
          args := h.args ++ [h.buf],
          display := h.display ++ h.buf,
          buf := [] }
      else .ok h
termination_by h.buf.length
decreasing_by
  all_goals
    have hpos : 0 < h.buf.length := List.length_pos.mpr hb
    simp only [List.length_drop]
    omega

/-- The dispatch block of `consume` (auto.go lines 184-213): on completed
args with no command yet, look the first token up in `availableCommands`;
start it (recording name and `args[1:]`) or fail with `invalid command`. -/
def consumeDispatch (h : ReplyHandler) : Except AutoError ReplyHandler :=
  if h.cmd = none ∧ h.parsedArgs = true then
    match availableCommands.find? (fun spec => spec.cmd == h.args.headD []) with
    | some spec =>
      .ok { h with cmd := some spec.cmd, cmdArgs := h.args.drop 1, args := h.args.drop 1 }
    | none => .error (.invalidCommand (h.args.headD []))
  else .ok h

/-- The body block of `consume` (auto.go lines 215-229): once args are
parsed, pipe all buffered bytes to the command, closing the pipe on
finalize; `failed to parse command` if no command was matched. -/
def consumeFlush (finalize : Bool) (h : ReplyHandler) : Except AutoError ReplyHandler :=
  if h.parsedArgs = true then
    if h.cmd = none then .error .failedToParse
    else .ok { h with
      body := h.body ++ h.buf,
      buf := [],
      bodyClosed := h.bodyClosed || finalize }
  else .ok h

/-- `ReplyHandler.consume` (auto.go lines 133-232). -/
def consume (finalize : Bool) (h : ReplyHandler) : Except AutoError ReplyHandler :=
  match consumeLoop finalize h with
  | .error e => .error e
  | .ok h1 =>
    match consumeDispatch h1 with
    | .error e => .error e
    | .ok h2 => consumeFlush finalize h2

/-- State at the start of `ReplyHandler.Handle`: zero-valued handler, with
the prompt decoration already written to the display. -/
def initHandler : ReplyHandler :=
  { comment := [], parsedArgs := false, args := [], buf := [], cmd := none,
    cmdArgs := [], body := [], bodyClosed := false, display := aiPS1 }

/-- Sequence of `ReplyHandler.Write` calls (one per chunk delivered by
`io.Copy`): each appends its chunk to the buffer and runs
`consume(false)`; an error stops the copy. -/
def feedChunks (h : ReplyHandler) : List (List Nat) → Except AutoError ReplyHandler
  | [] => .ok h
  | c :: cs =>
    match consume false { h with buf := h.buf ++ c } with
    | .error e => .error e
    | .ok h1 => feedChunks h1 cs

/-- The successive handler states produced while feeding chunks (empty once
an error aborts the copy); used to express that nothing was ever
dispatched. -/
def feedStates (h : ReplyHandler) : List (List Nat) → List ReplyHandler
  | [] => []
  | c :: cs =>
    match consume false { h with buf := h.buf ++ c } with
    | .error _ => []
    | .ok h1 => h1 :: feedStates h1 cs

/-- `ReplyHandler.Handle` (auto.go lines 109-125): copy the reply stream in
chunks, run `consume(true)` at stream end, and write a final newline to the
display when a command ran.  (Awaiting the command's result is external.) -/
def handleStream (chunks : List (List Nat)) : Except AutoError ReplyHandler :=
  match feedChunks initHandler chunks with
  | .error e => .error e
  | .ok h1 =>
    match consume true h1 with
    | .error e => .error e
    | .ok h2 =>
      .ok (if h2.cmd = none then h2 else { h2 with display := h2.display ++ [10] })

/-- Tokens joined by single spaces — the byte form of an argument line. -/
def joinSp : List (List Nat) → List Nat
  | [] => []
  | [t] => t
  | t :: t2 :: ts => t ++ 32 :: joinSp (t2 :: ts)

/-! ## Error formatting and the session loop (`FixableError`, `Run`) -/

/-- Lower-case hex digit byte, as used by Go's quoting (`lowerhex`). -/
def hexDigit (n : Nat) : Nat := if n < 10 then 48 + n else 87 + n

/-- Quoting of one byte of a Go byte string under `%q` (`strconv.Quote`):
quote and backslash are escaped, printable ASCII passes through, the named
control escapes apply, and other bytes become `\xNN`.  (For bytes ≥ 0x80
that form printable UTF-8 runes Go would print the rune instead; every
theorem below evaluates this only on ASCII data.) -/
def quoteByte (b : Nat) : List Nat :=
  if b = 34 ∨ b = 92 then [92, b]
  else if 32 ≤ b ∧ b ≤ 126 then [b]
  else if b = 7 then [92, 97]
  else if b = 8 then [92, 98]
  else if b = 12 then [92, 102]
  else if b = 10 then [92, 110]
  else if b = 13 then [92, 114]
  else if b = 9 then [92, 116]
  else if b = 11 then [92, 118]
  else [92, 120, hexDigit (b / 16), hexDigit (b % 16)]

/-- Go `%q` of a byte string: double quotes around the escaped bytes. -/
def quoteBytes (l : List Nat) : List Nat := 34 :: l.flatMap quoteByte ++ [34]

/-- The `Err` text of the `FixableError` for each parser error
(`fmt.Errorf` in auto.go). -/
def errText : AutoError → List Nat
  | .unexpectedInput b => strBytes ("unexpected input ") ++ quoteBytes b
  | .invalidCommand n => strBytes ("invalid command ") ++ quoteBytes n
  | .failedToParse => strBytes ("failed to parse command")

/-- The `Hint` text of the `FixableError` for each parser error (auto.go);
byte 39 is the apostrophe. -/
def hintText : AutoError → List Nat
  | .unexpectedInput _ =>
      strBytes ("Each command must be preceded by a comment line starting with ")
        ++ [39, 35, 39] ++ strBytes (" that explains the command.")
  | .invalidCommand _ =>
      strBytes ("You can only issue commands from the available commands list. If you are stuck, use the prompt command to ask for directions.")
  | .failedToParse =>
      strBytes ("Your reply must contain a comment starting with ")
        ++ [39, 35, 39] ++ strBytes (", then a command.")

/-- `FixableError.Error()`: `fmt.Sprintf("%s\n# GPT: %s", e.Err, e.Hint)`. -/
def fixMessage (e : AutoError) : List Nat :=
  errText e ++ strBytes ("\n# GPT: ") ++ hintText e

/-- The ways one turn of `Run` (auto.go lines 66-96) can fail: a recoverable
`FixableError` from the parser or a handler, end of the user input source
(`io.EOF`), a user interrupt (`readline.ErrInterrupt`), or a transport-level
failure obtaining or reading the reply stream. -/
inductive TurnError where
  | fixable (e : AutoError)
  | eofInput
  | interrupted
  | transport (msg : List Nat)

/-- What the session loop does after one turn. -/
inductive LoopOutcome where
  | continueWith (nextInput : List Nat)
  | finish
  | fatal (msg : List Nat)

/-- The error routing of `Run`'s loop body (auto.go lines 70-95): a
`FixableError` becomes the next turn's input via `e.Error()`; success feeds
the command output back; `io.EOF` and `readline.ErrInterrupt` end the loop
cleanly; any other error is fatal. -/
def sessionStep : Except TurnError (List Nat) → LoopOutcome
  | .ok output => .continueWith output
  | .error (.fixable e) => .continueWith (fixMessage e)
  | .error .eofInput => .finish
  | .error .interrupted => .finish
  | .error (.transport m) => .fatal m

/-! ## Confirmation protocol and the write command (`Chat.Confirmf`, `runWrite`) -/

/-- `unicode.IsSpace` on the code points that `strings.TrimSpace` can meet
in the Latin-1 range (tab, LF, VT, FF, CR, space, NEL, NBSP). -/
def isSpaceChar (c : Char) : Bool :=
  c.toNat = 9 ∨ c.toNat = 10 ∨ c.toNat = 11 ∨ c.toNat = 12 ∨ c.toNat = 13 ∨
  c.toNat = 32 ∨ c.toNat = 133 ∨ c.toNat = 160

/-- `strings.TrimSpace`. -/
def trimSpace (l : List Char) : List Char :=
  ((l.dropWhile isSpaceChar).reverse.dropWhile isSpaceChar).reverse

/-- `len(strings.Fields(s)) == 0` — the only use the source makes of
`strings.Fields`: it holds exactly when `s` contains no non-space
character. -/
def fieldsEmpty (l : List Char) : Bool := l.all isSpaceChar

/-- `Chat.Confirmf` (chat.go lines 86-102), as a function of the user's
raw reply line: returns (approved, reply text).  The readline-error path
(which returns `false, "no", err`) is external I/O and out of scope. -/
def Confirmf (reply : List Char) : Bool × List Char :=
  let res := trimSpace reply
  if fieldsEmpty res then (false, ['n', 'o'])
  else if res = ['y'] ∨ res = ['y', 'e', 's'] ∨ res = ['o', 'k'] then (true, res)
  else (false, res)

/-- `strconv.Quote` of one character, as used by `fmt.Sprintf("%q", reply)`
in `runWrite`: quote/backslash escaped, printable ASCII verbatim, named
control escapes, `\xNN` for remaining bytes below 0x80 and for DEL.  (Go
prints printable non-ASCII runes verbatim and escapes the rest; the
theorems below only evaluate this on ASCII replies.) -/
def quoteChar (c : Char) : List Char :=
  if c = '"' ∨ c = '\\' then ['\\', c]
  else if 32 ≤ c.toNat ∧ c.toNat ≤ 126 then [c]
  else if c.toNat = 7 then ['\\', 'a']
  else if c.toNat = 8 then ['\\', 'b']
  else if c.toNat = 12 then ['\\', 'f']
  else if c.toNat = 10 then ['\\', 'n']
  else if c.toNat = 13 then ['\\', 'r']
  else if c.toNat = 9 then ['\\', 't']
  else if c.toNat = 11 then ['\\', 'v']
  else if c.toNat < 32 ∨ c.toNat = 127 then
    ['\\', 'x', Char.ofNat (if c.toNat / 16 < 10 then 48 + c.toNat / 16 else 87 + c.toNat / 16),
      Char.ofNat (if c.toNat % 16 < 10 then 48 + c.toNat % 16 else 87 + c.toNat % 16)]
  else [c]

/-- Go `%q` of a string. -/
def quoteString (l : List Char) : List Char := '"' :: l.flatMap quoteChar ++ ['"']

/-- The hint of the permission-denied `FixableError` in `runWrite`:
`fmt.Sprintf("I denied your request: %q", reply)`. -/
def hintDenied (reply : List Char) : List Char :=
  ("I denied your request: ").data ++ quoteString reply

/-- Externally visible effects of `runWrite`, in program order: reading the
body pipe (mirrored to the display by the `TeeReader`), issuing the
confirmation prompt, writing the file. -/
inductive WriteEffect where
  | readBody
  | confirmPrompt
  | fileWrite (path : List Char) (contents : List Nat)
deriving DecidableEq

/-- Result of `runWrite`: the `unexpected arg` `FixableError`, the Go
runtime panic from the out-of-range read `cmd.args[0]`, the
permission-denied `FixableError` (carrying the reply used in the hint), or
a successful write. -/
inductive WriteOutcome where
  | argError (extraArg : List Char)
  | panicOOB
  | denied (reason : List Char)
  | wrote
deriving DecidableEq

/-- `runWrite` (auto.go lines 290-320) as a function of the argument list
(`cmd.args`, the command name excluded), the fully-read body bytes, and the
user's confirmation reply line; paired with the list of effects performed
before returning.  `os.WriteFile` failures and pipe read errors are
external and modelled as absent. -/
def runWrite (args : List (List Char)) (body : List Nat) (userReply : List Char) :
    WriteOutcome × List WriteEffect :=
  match args with
  | _ :: a1 :: _ => (.argError a1, [])
  | [] => (.panicOOB, [.readBody])
  | [path] =>
    let c := Confirmf userReply
    if c.1 then (.wrote, [.readBody, .confirmPrompt, .fileWrite path body])
    else (.denied c.2, [.readBody, .confirmPrompt])

/-! ## Substring search used to state the containment claims -/

/-- Boolean prefix test. -/
def isPrefixB {α : Type} [DecidableEq α] : List α → List α → Bool
  | [], _ => true
  | _ :: _, [] => false
  | a :: as, b :: bs => decide (a = b) && isPrefixB as bs

/-- Boolean substring test: does `p` occur contiguously in the second
list? -/
def containsB {α : Type} [DecidableEq α] (p : List α) : List α → Bool
  | [] => isPrefixB p []
  | b :: rest => isPrefixB p (b :: rest) || containsB p rest

/-- Error-propagating sequencing of parser steps (the early `return err`
pattern of the Go code). -/
def exceptStep (x : Except AutoError ReplyHandler)
    (f : ReplyHandler → Except AutoError ReplyHandler) : Except AutoError ReplyHandler :=
  match x with
  | .error e => .error e
  | .ok h1 => f h1

/-- States whose buffered bytes cannot trip the leading-comment check in a
way that depends on chunking: once any comment byte has been consumed the
check is disabled, and before that the buffer is empty or starts with
`'#'`. -/
def HeadOk (h : ReplyHandler) : Prop :=
  h.comment = [] → h.buf = [] ∨ h.buf.headD 0 = 35

/-- The phase-ordering invariant of the parse state (spec section 3, Parse
State): tokens only after the comment is newline-terminated, the
args-complete flag only with the comment finished and the command name (or a
dispatched command) recorded, body bytes only after the flag is set. -/
def ParserInv (h : ReplyHandler) : Prop :=
  (h.args ≠ [] → endsNL h.comment = true) ∧
  (h.parsedArgs = true → endsNL h.comment = true) ∧
  (h.body ≠ [] → h.parsedArgs = true) ∧
  (h.parsedArgs = true → h.cmd ≠ none ∨ h.args ≠ [])

/-! ## List helper lemmas -/

lemma take_append_le {α : Type} : ∀ (n : Nat) (l q : List α), n ≤ l.length →
    (l ++ q).take n = l.take n := by
  intro n
  induction n with
  | zero => intro l q _; simp
  | succ m ih =>
    intro l q hn
    cases l with
    | nil => simp at hn
    | cons a l' =>
      simp only [List.cons_append, List.take_succ_cons]
      rw [ih l' q (by simpa using hn)]

lemma drop_append_le {α : Type} : ∀ (n : Nat) (l q : List α), n ≤ l.length →
    (l ++ q).drop n = l.drop n ++ q := by
  intro n
  induction n with
  | zero => intro l q _; simp
  | succ m ih =>
    intro l q hn
    cases l with
    | nil => simp at hn
    | cons a l' =>
      simp only [List.cons_append, List.drop_succ_cons]
      exact ih l' q (by simpa using hn)

lemma take_add_append {α : Type} : ∀ (l q : List α) (k : Nat),
    (l ++ q).take (l.length + k) = l ++ q.take k := by
  intro l
  induction l with
  | nil => simp
  | cons a l' ih =>
    intro q k
    simp only [List.cons_append, List.length_cons]
    have : l'.length + 1 + k = (l'.length + k) + 1 := by omega
    rw [this, List.take_succ_cons, ih]

lemma drop_add_append {α : Type} : ∀ (l q : List α) (k : Nat),
    (l ++ q).drop (l.length + k) = q.drop k := by
  intro l
  induction l with
  | nil => simp
  | cons a l' ih =>
    intro q k
    simp only [List.cons_append, List.length_cons]
    have : l'.length + 1 + k = (l'.length + k) + 1 := by omega
    rw [this, List.drop_succ_cons, ih]

lemma take_len_cons {α : Type} (l : List α) (a : α) (r : List α) :
    (l ++ a :: r).take (l.length + 1) = l ++ [a] := by
  have := take_add_append l (a :: r) 1
  simpa using this

lemma drop_len_cons {α : Type} (l : List α) (a : α) (r : List α) :
    (l ++ a :: r).drop (l.length + 1) = r := by
  have := drop_add_append l (a :: r) 1
  simpa using this

/-! ## Lemmas about the byte scans -/

lemma findNL_cons (b : Nat) (rest : List Nat) :
    findNL (b :: rest) = if b = 10 then some 0 else (findNL rest).map (fun i => i + 1) := rfl

lemma findNL_cons_ne (b : Nat) (rest : List Nat) (hb : b ≠ 10) :
    findNL (b :: rest) = (findNL rest).map (fun i => i + 1) := by
  rw [findNL_cons, if_neg hb]

lemma findNL_append_of_not_mem : ∀ (l q : List Nat), 10 ∉ l →
    findNL (l ++ q) = (findNL q).map (fun i => l.length + i) := by
  intro l
  induction l with
  | nil =>
    intro q _
    cases hq : findNL q <;> simp [hq]
  | cons b l' ih =>
    intro q hmem
    have hb : b ≠ 10 := by intro hb; exact hmem (hb ▸ List.mem_cons_self b l')
    have hl' : 10 ∉ l' := fun hx => hmem (List.mem_cons_of_mem _ hx)
    rw [List.cons_append, findNL_cons_ne b (l' ++ q) hb, ih q hl']
    cases hq : findNL q with
    | none => rfl
    | some j => simp; omega

lemma findNL_none_iff : ∀ (l : List Nat), findNL l = none ↔ 10 ∉ l := by
  intro l
  induction l with
  | nil => simp [findNL]
  | cons b l' ih =>
    by_cases hb : b = 10
    · subst hb; simp [findNL_cons]
    · rw [findNL_cons_ne b l' hb]
      simp [Option.map_eq_none', ih, hb]
      intro h; exact fun hx => hb hx.symm

lemma findNL_append_delim (l r : List Nat) (hl : 10 ∉ l) :
    findNL (l ++ 10 :: r) = some l.length := by
  rw [findNL_append_of_not_mem l (10 :: r) hl]
  simp [findNL_cons]

lemma findNL_some_lt : ∀ (l : List Nat) (i : Nat), findNL l = some i → i < l.length := by
  intro l
  induction l with
  | nil => intro i h; simp [findNL] at h
  | cons b l' ih =>
    intro i h
    by_cases hb : b = 10
    · simp [findNL_cons, hb] at h
      simp only [List.length_cons]; omega
    · rw [findNL_cons_ne b l' hb] at h
      cases hl' : findNL l' with
      | none => rw [hl'] at h; simp at h
      | some j =>
        rw [hl'] at h; simp at h
        have := ih j hl'
        simp only [List.length_cons]; omega

lemma findNL_append_some (l q : List Nat) (i : Nat) (h : findNL l = some i) :
    findNL (l ++ q) = some i := by
  induction l generalizing i with
  | nil => simp [findNL] at h
  | cons b l' ih =>
    by_cases hb : b = 10
    · rw [findNL_cons, if_pos hb] at h
      rw [List.cons_append, findNL_cons, if_pos hb]
      exact h
    · rw [findNL_cons_ne b l' hb] at h
      rw [List.cons_append, findNL_cons_ne b (l' ++ q) hb]
      cases hl' : findNL l' with
      | none => rw [hl'] at h; simp at h
      | some j =>
        rw [hl'] at h; simp at h
        rw [ih j hl']
        simp [h]

lemma findDelim_cons (b : Nat) (rest : List Nat) :
    findDelim (b :: rest) =
      if b = 10 then some (0, true)
      else if b = 32 then some (0, false)
      else
        match findDelim rest with
        | some (i, nl) => some (i + 1, nl)
        | none => none := rfl

lemma findDelim_cons_free (b : Nat) (rest : List Nat) (h10 : b ≠ 10) (h32 : b ≠ 32) :
    findDelim (b :: rest) = (findDelim rest).map (fun p => (p.1 + 1, p.2)) := by
  rw [findDelim_cons, if_neg h10, if_neg h32]
  cases h : findDelim rest with
  | none => rfl
  | some p => cases p; rfl

lemma findDelim_append_of_free : ∀ (l q : List Nat), (∀ b ∈ l, b ≠ 10 ∧ b ≠ 32) →
    findDelim (l ++ q) = (findDelim q).map (fun p => (l.length + p.1, p.2)) := by
  intro l
  induction l with
  | nil =>
    intro q _
    rw [List.nil_append]
    cases hq : findDelim q with
    | none => rfl
    | some p => cases p; simp
  | cons b l' ih =>
    intro q hfree
    have hb := hfree b (List.mem_cons_self b l')
    have hl' : ∀ x ∈ l', x ≠ 10 ∧ x ≠ 32 := fun x hx => hfree x (List.mem_cons_of_mem _ hx)
    rw [List.cons_append, findDelim_cons_free b (l' ++ q) hb.1 hb.2, ih q hl']
    cases hq : findDelim q with
    | none => rfl
    | some p => cases p; simp; omega

lemma findDelim_none_iff : ∀ (l : List Nat), findDelim l = none ↔ ∀ b ∈ l, b ≠ 10 ∧ b ≠ 32 := by
  intro l
  induction l with
  | nil => simp [findDelim]
  | cons b l' ih =>
    constructor
    · intro h x hx
      by_cases h10 : b = 10
      · rw [findDelim_cons, if_pos h10] at h; simp at h
      by_cases h32 : b = 32
      · rw [findDelim_cons, if_neg h10, if_pos h32] at h; simp at h
      rw [findDelim_cons_free b l' h10 h32] at h
      have hl' : findDelim l' = none := by
        cases hl : findDelim l' with
        | none => rfl
        | some p => rw [hl] at h; cases p; simp at h
      rcases List.mem_cons.mp hx with hx | hx
      · subst hx; exact ⟨h10, h32⟩
      · exact (ih.mp hl') x hx
    · intro h
      have hb := h b (List.mem_cons_self b l')
      rw [findDelim_cons_free b l' hb.1 hb.2,
        ih.mpr (fun x hx => h x (List.mem_cons_of_mem _ hx))]
      rfl

lemma findDelim_append_delim (l r : List Nat) (d : Nat)
    (hl : ∀ b ∈ l, b ≠ 10 ∧ b ≠ 32) (hd : d = 10 ∨ d = 32) :
    findDelim (l ++ d :: r) = some (l.length, d == 10) := by
  rw [findDelim_append_of_free l (d :: r) hl]
  rcases hd with hd | hd <;> subst hd <;> simp [findDelim_cons]

lemma findDelim_some_lt : ∀ (l : List Nat) (i : Nat) (nl : Bool),
    findDelim l = some (i, nl) → i < l.length := by
  intro l
  induction l with
  | nil => intro i nl h; simp [findDelim] at h
  | cons b l' ih =>
    intro i nl h
    by_cases h10 : b = 10
    · simp [findDelim_cons, h10] at h
      simp only [List.length_cons]; omega
    · by_cases h32 : b = 32
      · simp [findDelim_cons, h10, h32] at h
        simp only [List.length_cons]; omega
      · rw [findDelim_cons_free b l' h10 h32] at h
        cases hl' : findDelim l' with
        | none => rw [hl'] at h; simp at h
        | some p =>
          rw [hl'] at h
          cases p with
          | mk j ml =>
            simp at h
            have := ih j ml hl'
            simp only [List.length_cons]; omega

lemma findDelim_append_some (l q : List Nat) (i : Nat) (nl : Bool)
    (h : findDelim l = some (i, nl)) : findDelim (l ++ q) = some (i, nl) := by
  induction l generalizing i with
  | nil => simp [findDelim] at h
  | cons b l' ih =>
    by_cases h10 : b = 10
    · rw [findDelim_cons, if_pos h10] at h
      rw [List.cons_append, findDelim_cons, if_pos h10]
      exact h
    · by_cases h32 : b = 32
      · rw [findDelim_cons, if_neg h10, if_pos h32] at h
        rw [List.cons_append, findDelim_cons, if_neg h10, if_pos h32]
        exact h
      · rw [findDelim_cons_free b l' h10 h32] at h
        rw [List.cons_append, findDelim_cons_free b (l' ++ q) h10 h32]
        cases hl' : findDelim l' with
        | none => rw [hl'] at h; simp at h
        | some p =>
          rw [hl'] at h
          cases p with
          | mk j ml =>
            simp at h
            rw [ih j (by rw [hl', h.2])]
            simp [h.1, h.2]

/-! ## Lemmas about `endsNL` -/

lemma endsNL_cons_cons (a b : Nat) (rest : List Nat) :
    endsNL (a :: b :: rest) = endsNL (b :: rest) := rfl

lemma endsNL_append (l r : List Nat) (hr : r ≠ []) : endsNL (l ++ r) = endsNL r := by
  induction l with
  | nil => rfl
  | cons a l' ih =>
    rw [List.cons_append]
    obtain ⟨c, cs, hcc⟩ := List.exists_cons_of_ne_nil (show l' ++ r ≠ [] by simp [hr])
    rw [hcc, endsNL_cons_cons, ← hcc, ih]

lemma endsNL_concat (l : List Nat) : endsNL (l ++ [10]) = true := by
  rw [endsNL_append l [10] (by simp)]; rfl

lemma endsNL_ne_nil (l : List Nat) (h : endsNL l = true) : l ≠ [] := by
  intro hl; subst hl; simp [endsNL] at h

lemma endsNL_of_not_mem (l : List Nat) (h : 10 ∉ l) : endsNL l = false := by
  induction l with
  | nil => rfl
  | cons b l' ih =>
    cases l' with
    | nil =>
      have : b ≠ 10 := by intro hb; exact h (hb ▸ List.mem_cons_self b [])
      simp [endsNL, this]
    | cons c cs =>
      rw [endsNL_cons_cons]
      exact ih (fun hx => h (List.mem_cons_of_mem _ hx))

/-! ## Case lemmas for one `consume` loop iteration -/

lemma consumeLoop_nil (f : Bool) (h : ReplyHandler) (hb : h.buf = []) :
    consumeLoop f h = .ok h := by
  conv_lhs => unfold consumeLoop
  rw [dif_pos hb]

lemma consumeLoop_parsed (f : Bool) (h : ReplyHandler) (hp : h.parsedArgs = true) :
    consumeLoop f h = .ok h := by
  conv_lhs => unfold consumeLoop
  by_cases hb : h.buf = []
  · rw [dif_pos hb]
  · rw [dif_neg hb, if_pos hp]

lemma consumeLoop_badHead (f : Bool) (h : ReplyHandler) (hb : h.buf ≠ [])
    (hp : h.parsedArgs = false) (hc : h.comment = []) (hne : h.buf.headD 0 ≠ 35) :
    consumeLoop f h = .error (.unexpectedInput h.buf) := by
  conv_lhs => unfold consumeLoop
  rw [dif_neg hb, if_neg (by simp [hp]), if_pos ⟨hc, hne⟩]

lemma consumeLoop_comment_step (f : Bool) (h : ReplyHandler) (i : Nat) (hb : h.buf ≠ [])
    (hp : h.parsedArgs = false) (hhead : ¬(h.comment = [] ∧ h.buf.headD 0 ≠ 35))
    (hcnl : endsNL h.comment = false) (hfind : findNL h.buf = some i) :
    consumeLoop f h = consumeLoop f { h with
      comment := h.comment ++ h.buf.take (i + 1),
      display := h.display ++ h.buf.take (i + 1) ++ aiPS1,
      buf := h.buf.drop (i + 1) } := by
  conv_lhs => unfold consumeLoop
  rw [dif_neg hb, if_neg (by simp [hp]), if_neg hhead, if_pos hcnl, hfind]

lemma consumeLoop_comment_all (f : Bool) (h : ReplyHandler) (hb : h.buf ≠ [])
    (hp : h.parsedArgs = false) (hhead : ¬(h.comment = [] ∧ h.buf.headD 0 ≠ 35))
    (hcnl : endsNL h.comment = false) (hfind : findNL h.buf = none) :
    consumeLoop f h = .ok { h with
      comment := h.comment ++ h.buf,
      display := h.display ++ h.buf,
      buf := [] } := by
  conv_lhs => unfold consumeLoop
  rw [dif_neg hb, if_neg (by simp [hp]), if_neg hhead, if_pos hcnl, hfind]

lemma consumeLoop_token_step (f : Bool) (h : ReplyHandler) (i : Nat) (nl : Bool)
    (hb : h.buf ≠ []) (hp : h.parsedArgs = false)
    (hcnl : endsNL h.comment = true) (hfind : findDelim h.buf = some (i, nl)) :
    consumeLoop f h = consumeLoop f { h with
      parsedArgs := nl,
      args := h.args ++ [h.buf.take i],
      display := h.display ++ h.buf.take (i + 1),
      buf := h.buf.drop (i + 1) } := by
  conv_lhs => unfold consumeLoop
  rw [dif_neg hb, if_neg (by simp [hp]),
    if_neg (fun hx => (endsNL_ne_nil h.comment hcnl) hx.1),
    if_neg (by simp [hcnl]), hfind]

lemma consumeLoop_token_none_false (h : ReplyHandler) (hb : h.buf ≠ [])
    (hp : h.parsedArgs = false) (hcnl : endsNL h.comment = true)
    (hfind : findDelim h.buf = none) :
    consumeLoop false h = .ok h := by
  conv_lhs => unfold consumeLoop
  rw [dif_neg hb, if_neg (by simp [hp]),
    if_neg (fun hx => (endsNL_ne_nil h.comment hcnl) hx.1),
    if_neg (by simp [hcnl]), hfind]
  rfl

lemma consumeLoop_token_none_true (h : ReplyHandler) (hb : h.buf ≠ [])
    (hp : h.parsedArgs = false) (hcnl : endsNL h.comment = true)
    (hfind : findDelim h.buf = none) :
    consumeLoop true h = .ok { h with
      args := h.args ++ [h.buf],
      display := h.display ++ h.buf,
      buf := [] } := by
  conv_lhs => unfold consumeLoop
  rw [dif_neg hb, if_neg (by simp [hp]),
    if_neg (fun hx => (endsNL_ne_nil h.comment hcnl) hx.1),
    if_neg (by simp [hcnl]), hfind]
  rfl

/-! ## Chunk-boundary independence of the parse loop -/

@[simp] lemma exceptStep_ok (h1 : ReplyHandler) (f : ReplyHandler → Except AutoError ReplyHandler) :
    exceptStep (.ok h1) f = f h1 := rfl

@[simp] lemma exceptStep_error (e : AutoError) (f : ReplyHandler → Except AutoError ReplyHandler) :
    exceptStep (.error e) f = .error e := rfl

lemma consumeLoop_split : ∀ (n : Nat) (h : ReplyHandler) (q : List Nat),
    h.buf.length ≤ n → HeadOk h →
    consumeLoop false { h with buf := h.buf ++ q } =
      exceptStep (consumeLoop false h)
        (fun h1 => consumeLoop false { h1 with buf := h1.buf ++ q }) := by
  intro n
  induction n with
  | zero =>
    intro h q hlen _
    have hb : h.buf = [] := List.length_eq_zero.mp (Nat.le_zero.mp hlen)
    rw [consumeLoop_nil false h hb]
    simp only [exceptStep_ok]
  | succ m ih =>
    intro h q hlen hok
    by_cases hb : h.buf = []
    · rw [consumeLoop_nil false h hb]
      simp only [exceptStep_ok]
    · by_cases hp : h.parsedArgs = true
      · rw [consumeLoop_parsed false h hp]
        simp only [exceptStep_ok]
      · have hpf : h.parsedArgs = false := by revert hp; cases h.parsedArgs <;> simp
        have hpos : 0 < h.buf.length := List.length_pos.mpr hb
        have hg : ¬(h.comment = [] ∧ h.buf.headD 0 ≠ 35) := by
          intro hx
          rcases hok hx.1 with h1 | h1
          · exact hb h1
          · exact hx.2 h1
        have hbq : h.buf ++ q ≠ [] := by simp [hb]
        have hgq : ¬(h.comment = [] ∧ (h.buf ++ q).headD 0 ≠ 35) := by
          intro hx
          rcases hok hx.1 with h1 | h1
          · exact hb h1
          · apply hx.2
            obtain ⟨b0, rest, hcons⟩ := List.exists_cons_of_ne_nil hb
            rw [hcons] at h1 ⊢
            simpa using h1
        by_cases hcnl : endsNL h.comment = false
        · -- comment phase
          cases hfind : findNL h.buf with
          | some i =>
            have hlt : i < h.buf.length := findNL_some_lt h.buf i hfind
            have hfq : findNL (h.buf ++ q) = some i := findNL_append_some h.buf q i hfind
            rw [consumeLoop_comment_step false { h with buf := h.buf ++ q } i hbq hpf hgq hcnl hfq]
            rw [consumeLoop_comment_step false h i hb hpf hg hcnl hfind]
            have ht : (h.buf ++ q).take (i + 1) = h.buf.take (i + 1) :=
              take_append_le (i + 1) h.buf q (by omega)
            have hd : (h.buf ++ q).drop (i + 1) = h.buf.drop (i + 1) ++ q :=
              drop_append_le (i + 1) h.buf q (by omega)
            rw [ht, hd]
            have htn : h.buf.take (i + 1) ≠ [] := by
              obtain ⟨b0, rest, hcons⟩ := List.exists_cons_of_ne_nil hb
              rw [hcons, List.take_succ_cons]
              simp
            exact ih { h with
                comment := h.comment ++ h.buf.take (i + 1),
                display := h.display ++ h.buf.take (i + 1) ++ aiPS1,
                buf := h.buf.drop (i + 1) } q
              (by simp only [List.length_drop]; omega)
              (by
                intro hc2
                exact absurd ((List.append_eq_nil.mp hc2).2) htn)
          | none =>
            have hnm : 10 ∉ h.buf := (findNL_none_iff h.buf).mp hfind
            have hc3 : h.comment ++ h.buf ≠ [] := by simp [hb]
            have hcnl3 : endsNL (h.comment ++ h.buf) = false := by
              rw [endsNL_append h.comment h.buf hb]
              exact endsNL_of_not_mem h.buf hnm
            have hfq : findNL (h.buf ++ q) = (findNL q).map (fun i => h.buf.length + i) :=
              findNL_append_of_not_mem h.buf q hnm
            rw [consumeLoop_comment_all false h hb hpf hg hcnl hfind]
            simp only [exceptStep_ok, List.nil_append]
            cases hfindq : findNL q with
            | some j =>
              have hqne : q ≠ [] := by
                intro hq; rw [hq] at hfindq; simp [findNL] at hfindq
              have hfq' : findNL (h.buf ++ q) = some (h.buf.length + j) := by
                rw [hfq, hfindq]; rfl
              rw [consumeLoop_comment_step false { h with buf := h.buf ++ q }
                (h.buf.length + j) hbq hpf hgq hcnl hfq']
              rw [consumeLoop_comment_step false
                { h with comment := h.comment ++ h.buf, display := h.display ++ h.buf, buf := q }
                j hqne hpf (fun hx => absurd hx.1 hc3) hcnl3 hfindq]
              have harith : h.buf.length + j + 1 = h.buf.length + (j + 1) := by omega
              rw [harith, take_add_append h.buf q (j + 1), drop_add_append h.buf q (j + 1)]
              simp [List.append_assoc]
            | none =>
              have hfq' : findNL (h.buf ++ q) = none := by rw [hfq, hfindq]; rfl
              rw [consumeLoop_comment_all false { h with buf := h.buf ++ q } hbq hpf hgq hcnl hfq']
              by_cases hqnil : q = []
              · subst hqnil
                rw [consumeLoop_nil false
                  { h with comment := h.comment ++ h.buf, display := h.display ++ h.buf, buf := [] }
                  rfl]
                simp
              · rw [consumeLoop_comment_all false
                  { h with comment := h.comment ++ h.buf, display := h.display ++ h.buf, buf := q }
                  hqnil hpf (fun hx => absurd hx.1 hc3) hcnl3 hfindq]
                simp [List.append_assoc]
        · -- token phase
          have hcnl' : endsNL h.comment = true := by
            revert hcnl; cases endsNL h.comment <;> simp
          cases hfind : findDelim h.buf with
          | some p =>
            cases p with
            | mk i nl =>
              have hlt : i < h.buf.length := findDelim_some_lt h.buf i nl hfind
              have hfq : findDelim (h.buf ++ q) = some (i, nl) :=
                findDelim_append_some h.buf q i nl hfind
              rw [consumeLoop_token_step false { h with buf := h.buf ++ q } i nl hbq hpf hcnl' hfq]
              rw [consumeLoop_token_step false h i nl hb hpf hcnl' hfind]
              have ht : (h.buf ++ q).take i = h.buf.take i :=
                take_append_le i h.buf q (by omega)
              have ht1 : (h.buf ++ q).take (i + 1) = h.buf.take (i + 1) :=
                take_append_le (i + 1) h.buf q (by omega)
              have hd : (h.buf ++ q).drop (i + 1) = h.buf.drop (i + 1) ++ q :=
                drop_append_le (i + 1) h.buf q (by omega)
              rw [ht, ht1, hd]
              exact ih { h with
                  parsedArgs := nl,
                  args := h.args ++ [h.buf.take i],
                  display := h.display ++ h.buf.take (i + 1),
                  buf := h.buf.drop (i + 1) } q
                (by simp only [List.length_drop]; omega)
                (by
                  intro hc2
                  exact absurd hc2 (endsNL_ne_nil h.comment hcnl'))
          | none =>
            rw [consumeLoop_token_none_false h hb hpf hcnl' hfind]
            simp only [exceptStep_ok]

lemma consume_split (h : ReplyHandler) (q : List Nat) (hok : HeadOk h) :
    consume false { h with buf := h.buf ++ q } =
      exceptStep (consume false h)
        (fun h1 => consume false { h1 with buf := h1.buf ++ q }) := by
  unfold consume
  rw [consumeLoop_split h.buf.length h q le_rfl hok]
  cases hres : consumeLoop false h with
  | error e => simp
  | ok h1 =>
    simp only [exceptStep_ok]
    by_cases hp1 : h1.parsedArgs = true
    · rw [consumeLoop_parsed false { h1 with buf := h1.buf ++ q } (by simpa using hp1)]
      by_cases hcmd : h1.cmd = none
      · cases hfindspec : availableCommands.find? (fun spec => spec.cmd == h1.args.headD []) with
        | none =>
          simp only [List.headD_eq_head?_getD] at hfindspec
          simp [consumeDispatch, consumeFlush, hcmd, hp1, hfindspec]
        | some spec =>
          simp only [List.headD_eq_head?_getD] at hfindspec
          simp [consumeDispatch, consumeFlush, hcmd, hp1, hfindspec,
            consumeLoop_parsed, List.append_assoc]
      · simp [consumeDispatch, consumeFlush, hcmd, hp1, consumeLoop_parsed, List.append_assoc]
    · have hp1f : h1.parsedArgs = false := by revert hp1; cases h1.parsedArgs <;> simp
      simp [consumeDispatch, consumeFlush, hp1f]

lemma consumeLoop_ok_shape : ∀ (n : Nat) (h h' : ReplyHandler), h.buf.length ≤ n →
    consumeLoop false h = .ok h' →
    h'.buf = [] ∨ h'.parsedArgs = true ∨
      (h'.parsedArgs = false ∧ endsNL h'.comment = true ∧ findDelim h'.buf = none) := by
  intro n
  induction n with
  | zero =>
    intro h h' hlen hres
    have hb : h.buf = [] := List.length_eq_zero.mp (Nat.le_zero.mp hlen)
    rw [consumeLoop_nil false h hb] at hres
    injection hres with he
    subst he
    exact Or.inl hb
  | succ m ih =>
    intro h h' hlen hres
    by_cases hb : h.buf = []
    · rw [consumeLoop_nil false h hb] at hres
      injection hres with he
      subst he
      exact Or.inl hb
    · have hpos : 0 < h.buf.length := List.length_pos.mpr hb
      by_cases hp : h.parsedArgs = true
      · rw [consumeLoop_parsed false h hp] at hres
        injection hres with he
        subst he
        exact Or.inr (Or.inl hp)
      · have hpf : h.parsedArgs = false := by revert hp; cases h.parsedArgs <;> simp
        by_cases hgx : h.comment = [] ∧ h.buf.headD 0 ≠ 35
        · rw [consumeLoop_badHead false h hb hpf hgx.1 hgx.2] at hres
          cases hres
        · by_cases hcnl : endsNL h.comment = false
          · cases hfind : findNL h.buf with
            | some i =>
              rw [consumeLoop_comment_step false h i hb hpf hgx hcnl hfind] at hres
              exact ih _ h' (by simp only [List.length_drop]; omega) hres
            | none =>
              rw [consumeLoop_comment_all false h hb hpf hgx hcnl hfind] at hres
              injection hres with he
              subst he
              exact Or.inl rfl
          · have hcnl' : endsNL h.comment = true := by
              revert hcnl; cases endsNL h.comment <;> simp
            cases hfind : findDelim h.buf with
            | some p =>
              cases p with
              | mk i nl =>
                rw [consumeLoop_token_step false h i nl hb hpf hcnl' hfind] at hres
                exact ih _ h' (by simp only [List.length_drop]; omega) hres
            | none =>
              rw [consumeLoop_token_none_false h hb hpf hcnl' hfind] at hres
              injection hres with he
              subst he
              exact Or.inr (Or.inr ⟨hpf, hcnl', hfind⟩)

lemma consume_ok_cases (h h' : ReplyHandler) (hres : consume false h = .ok h') :
    (h'.parsedArgs = true → h'.cmd ≠ none ∧ h'.buf = []) ∧
    (h'.parsedArgs = false → h'.buf = [] ∨ (endsNL h'.comment = true ∧ findDelim h'.buf = none)) := by
  unfold consume at hres
  cases hl : consumeLoop false h with
  | error e => rw [hl] at hres; cases hres
  | ok h1 =>
    rw [hl] at hres
    simp only [] at hres
    have hshape := consumeLoop_ok_shape h.buf.length h h1 le_rfl hl
    by_cases hp1 : h1.parsedArgs = true
    · by_cases hcmd1 : h1.cmd = none
      · unfold consumeDispatch at hres
        rw [if_pos (And.intro hcmd1 hp1)] at hres
        cases hfs : availableCommands.find? (fun spec => spec.cmd == h1.args.headD []) with
        | none => rw [hfs] at hres; cases hres
        | some spec =>
          rw [hfs] at hres
          simp only [] at hres
          unfold consumeFlush at hres
          simp only [] at hres
          rw [if_pos hp1, if_neg (Option.some_ne_none spec.cmd)] at hres
          injection hres with he
          subst he
          refine ⟨fun _ => ⟨by simp, rfl⟩, fun hx => ?_⟩
          exact absurd (show h1.parsedArgs = false from hx) (by simp [hp1])
      · unfold consumeDispatch at hres
        rw [if_neg (show ¬(h1.cmd = none ∧ h1.parsedArgs = true) from fun hx => hcmd1 hx.1)] at hres
        simp only [] at hres
        unfold consumeFlush at hres
        rw [if_pos hp1, if_neg hcmd1] at hres
        injection hres with he
        subst he
        refine ⟨fun _ => ⟨by simpa using hcmd1, rfl⟩, fun hx => ?_⟩
        exact absurd (show h1.parsedArgs = false from hx) (by simp [hp1])
    · have hp1f : h1.parsedArgs = false := by revert hp1; cases h1.parsedArgs <;> simp
      unfold consumeDispatch at hres
      rw [if_neg (show ¬(h1.cmd = none ∧ h1.parsedArgs = true) from fun hx => hp1 hx.2)] at hres
      simp only [] at hres
      unfold consumeFlush at hres
      rw [if_neg (show ¬(h1.parsedArgs = true) from hp1)] at hres
      injection hres with he
      subst he
      refine ⟨fun hx => absurd hx hp1, fun _ => ?_⟩
      rcases hshape with hx | hx | hx
      · exact Or.inl hx
      · exact absurd hx hp1
      · exact Or.inr ⟨hx.2.1, hx.2.2⟩

lemma consume_false_idem (h h' : ReplyHandler) (hres : consume false h = .ok h') :
    consume false h' = .ok h' := by
  obtain ⟨hA, hB⟩ := consume_ok_cases h h' hres
  by_cases hp : h'.parsedArgs = true
  · obtain ⟨hcmd, hbuf⟩ := hA hp
    unfold consume
    rw [consumeLoop_nil false h' hbuf]
    simp only []
    unfold consumeDispatch
    rw [if_neg (show ¬(h'.cmd = none ∧ h'.parsedArgs = true) from fun hx => hcmd hx.1)]
    simp only []
    unfold consumeFlush
    rw [if_pos hp, if_neg hcmd]
    have heq : ({ h' with
        body := h'.body ++ h'.buf,
        buf := [],
        bodyClosed := h'.bodyClosed || false } : ReplyHandler) = h' := by
      ext <;> simp [hbuf]
    rw [heq]
  · have hpf : h'.parsedArgs = false := by revert hp; cases h'.parsedArgs <;> simp
    have hfin : consumeLoop false h' = .ok h' := by
      rcases hB hpf with hx | hx
      · exact consumeLoop_nil false h' hx
      · by_cases hbuf : h'.buf = []
        · exact consumeLoop_nil false h' hbuf
        · exact consumeLoop_token_none_false h' hbuf hpf hx.1 hx.2
    unfold consume
    rw [hfin]
    simp only []
    unfold consumeDispatch
    rw [if_neg (show ¬(h'.cmd = none ∧ h'.parsedArgs = true) from fun hx => hp hx.2)]
    simp only []
    unfold consumeFlush
    rw [if_neg (show ¬(h'.parsedArgs = true) from hp)]

/-! ## Preservation of the phase-ordering invariant -/

lemma consumeLoop_inv : ∀ (n : Nat) (f : Bool) (h h' : ReplyHandler), h.buf.length ≤ n →
    ParserInv h → consumeLoop f h = .ok h' → ParserInv h' := by
  intro n
  induction n with
  | zero =>
    intro f h h' hlen hInv hres
    have hb : h.buf = [] := List.length_eq_zero.mp (Nat.le_zero.mp hlen)
    rw [consumeLoop_nil f h hb] at hres
    injection hres with he
    subst he
    exact hInv
  | succ m ih =>
    intro f h h' hlen hInv hres
    by_cases hb : h.buf = []
    · rw [consumeLoop_nil f h hb] at hres
      injection hres with he
      subst he
      exact hInv
    · have hpos : 0 < h.buf.length := List.length_pos.mpr hb
      by_cases hp : h.parsedArgs = true
      · rw [consumeLoop_parsed f h hp] at hres
        injection hres with he
        subst he
        exact hInv
      · have hpf : h.parsedArgs = false := by revert hp; cases h.parsedArgs <;> simp
        by_cases hgx : h.comment = [] ∧ h.buf.headD 0 ≠ 35
        · rw [consumeLoop_badHead f h hb hpf hgx.1 hgx.2] at hres
          cases hres
        · by_cases hcnl : endsNL h.comment = false
          · cases hfind : findNL h.buf with
            | some i =>
              rw [consumeLoop_comment_step f h i hb hpf hgx hcnl hfind] at hres
              refine ih f _ h' (by simp only [List.length_drop]; omega) ?_ hres
              refine ⟨?_, ?_, ?_, ?_⟩
              · intro ha
                exact absurd (hInv.1 ha) (by simp [hcnl])
              · intro hx
                exact absurd (show h.parsedArgs = true from hx) (by simp [hpf])
              · intro hbody
                exact hInv.2.2.1 hbody
              · intro hx
                exact absurd (show h.parsedArgs = true from hx) (by simp [hpf])
            | none =>
              rw [consumeLoop_comment_all f h hb hpf hgx hcnl hfind] at hres
              injection hres with he
              subst he
              refine ⟨?_, ?_, ?_, ?_⟩
              · intro ha
                exact absurd (hInv.1 ha) (by simp [hcnl])
              · intro hx
                exact absurd (show h.parsedArgs = true from hx) (by simp [hpf])
              · intro hbody
                exact hInv.2.2.1 hbody
              · intro hx
                exact absurd (show h.parsedArgs = true from hx) (by simp [hpf])
          · have hcnl' : endsNL h.comment = true := by
              revert hcnl; cases endsNL h.comment <;> simp
            cases hfind : findDelim h.buf with
            | some p =>
              cases p with
              | mk i nl =>
                rw [consumeLoop_token_step f h i nl hb hpf hcnl' hfind] at hres
                refine ih f _ h' (by simp only [List.length_drop]; omega) ?_ hres
                refine ⟨fun _ => hcnl', fun _ => hcnl', ?_, ?_⟩
                · intro hbody
                  exact absurd (hInv.2.2.1 hbody) (by simp [hpf])
                · intro _
                  exact Or.inr (by simp)
            | none =>
              cases f with
              | false =>
                rw [consumeLoop_token_none_false h hb hpf hcnl' hfind] at hres
                injection hres with he
                subst he
                exact hInv
              | true =>
                rw [consumeLoop_token_none_true h hb hpf hcnl' hfind] at hres
                injection hres with he
                subst he
                refine ⟨fun _ => hcnl', fun _ => hcnl', ?_, ?_⟩
                · intro hbody
                  exact hInv.2.2.1 hbody
                · intro hx
                  exact absurd (show h.parsedArgs = true from hx) (by simp [hpf])

lemma consumeDispatch_inv (h h' : ReplyHandler) (hInv : ParserInv h)
    (hres : consumeDispatch h = .ok h') : ParserInv h' := by
  unfold consumeDispatch at hres
  by_cases hg : h.cmd = none ∧ h.parsedArgs = true
  · rw [if_pos hg] at hres
    cases hfs : availableCommands.find? (fun spec => spec.cmd == h.args.headD []) with
    | none => rw [hfs] at hres; cases hres
    | some spec =>
      rw [hfs] at hres
      injection hres with he
      subst he
      refine ⟨?_, fun _ => hInv.2.1 hg.2, fun hbody => hInv.2.2.1 hbody, fun _ => Or.inl (by simp)⟩
      intro hd
      refine hInv.1 (fun hnil => hd ?_)
      simp [show h.args = [] from hnil]
  · rw [if_neg hg] at hres
    injection hres with he
    subst he
    exact hInv

lemma consumeFlush_inv (f : Bool) (h h' : ReplyHandler) (hInv : ParserInv h)
    (hres : consumeFlush f h = .ok h') : ParserInv h' := by
  unfold consumeFlush at hres
  by_cases hp : h.parsedArgs = true
  · rw [if_pos hp] at hres
    by_cases hc : h.cmd = none
    · rw [if_pos hc] at hres; cases hres
    · rw [if_neg hc] at hres
      injection hres with he
      subst he
      exact ⟨fun ha => hInv.1 ha, fun _ => hInv.2.1 hp, fun _ => hp, fun _ => hInv.2.2.2 hp⟩
  · rw [if_neg hp] at hres
    injection hres with he
    subst he
    exact hInv

lemma consume_inv (f : Bool) (h h' : ReplyHandler) (hInv : ParserInv h)
    (hres : consume f h = .ok h') : ParserInv h' := by
  unfold consume at hres
  cases hl : consumeLoop f h with
  | error e => rw [hl] at hres; cases hres
  | ok h1 =>
    rw [hl] at hres
    simp only [] at hres
    cases hd : consumeDispatch h1 with
    | error e => rw [hd] at hres; cases hres
    | ok h2 =>
      rw [hd] at hres
      simp only [] at hres
      exact consumeFlush_inv f h2 h'
        (consumeDispatch_inv h1 h2 (consumeLoop_inv h.buf.length f h h1 le_rfl hInv hl) hd) hres

/-! ## Comment growth across `consume` calls -/

lemma headD_append (l x : List Nat) (hl : l ≠ []) : (l ++ x).headD 0 = l.headD 0 := by
  obtain ⟨b, rest, hb⟩ := List.exists_cons_of_ne_nil hl
  rw [hb]
  simp

lemma consumeLoop_comment_mono : ∀ (n : Nat) (f : Bool) (h h' : ReplyHandler),
    h.buf.length ≤ n → consumeLoop f h = .ok h' →
    ∃ x, h'.comment = h.comment ++ x := by
  intro n
  induction n with
  | zero =>
    intro f h h' hlen hres
    have hb : h.buf = [] := List.length_eq_zero.mp (Nat.le_zero.mp hlen)
    rw [consumeLoop_nil f h hb] at hres
    injection hres with he
    subst he
    exact ⟨[], by simp⟩
  | succ m ih =>
    intro f h h' hlen hres
    by_cases hb : h.buf = []
    · rw [consumeLoop_nil f h hb] at hres
      injection hres with he
      subst he
      exact ⟨[], by simp⟩
    · have hpos : 0 < h.buf.length := List.length_pos.mpr hb
      by_cases hp : h.parsedArgs = true
      · rw [consumeLoop_parsed f h hp] at hres
        injection hres with he
        subst he
        exact ⟨[], by simp⟩
      · have hpf : h.parsedArgs = false := by revert hp; cases h.parsedArgs <;> simp
        by_cases hgx : h.comment = [] ∧ h.buf.headD 0 ≠ 35
        · rw [consumeLoop_badHead f h hb hpf hgx.1 hgx.2] at hres
          cases hres
        · by_cases hcnl : endsNL h.comment = false
          · cases hfind : findNL h.buf with
            | some i =>
              rw [consumeLoop_comment_step f h i hb hpf hgx hcnl hfind] at hres
              obtain ⟨x, hx⟩ := ih f _ h' (by simp only [List.length_drop]; omega) hres
              exact ⟨h.buf.take (i + 1) ++ x, by simpa [List.append_assoc] using hx⟩
            | none =>
              rw [consumeLoop_comment_all f h hb hpf hgx hcnl hfind] at hres
              injection hres with he
              subst he
              exact ⟨h.buf, rfl⟩
          · have hcnl' : endsNL h.comment = true := by
              revert hcnl; cases endsNL h.comment <;> simp
            cases hfind : findDelim h.buf with
            | some p =>
              cases p with
              | mk i nl =>
                rw [consumeLoop_token_step f h i nl hb hpf hcnl' hfind] at hres
                obtain ⟨x, hx⟩ := ih f _ h' (by simp only [List.length_drop]; omega) hres
                exact ⟨x, hx⟩
            | none =>
              cases f with
              | false =>
                rw [consumeLoop_token_none_false h hb hpf hcnl' hfind] at hres
                injection hres with he
                subst he
                exact ⟨[], by simp⟩
              | true =>
                rw [consumeLoop_token_none_true h hb hpf hcnl' hfind] at hres
                injection hres with he
                subst he
                exact ⟨[], by simp⟩

lemma consumeDispatch_comment (h h' : ReplyHandler) (hres : consumeDispatch h = .ok h') :
    h'.comment = h.comment := by
  unfold consumeDispatch at hres
  by_cases hg : h.cmd = none ∧ h.parsedArgs = true
  · rw [if_pos hg] at hres
    cases hfs : availableCommands.find? (fun spec => spec.cmd == h.args.headD []) with
    | none => rw [hfs] at hres; cases hres
    | some spec =>
      rw [hfs] at hres
      injection hres with he
      subst he
      rfl
  · rw [if_neg hg] at hres
    injection hres with he
    subst he
    rfl

lemma consumeFlush_comment (f : Bool) (h h' : ReplyHandler) (hres : consumeFlush f h = .ok h') :
    h'.comment = h.comment := by
  unfold consumeFlush at hres
  by_cases hp : h.parsedArgs = true
  · rw [if_pos hp] at hres
    by_cases hc : h.cmd = none
    · rw [if_pos hc] at hres; cases hres
    · rw [if_neg hc] at hres
      injection hres with he
      subst he
      rfl
  · rw [if_neg hp] at hres
    injection hres with he
    subst he
    rfl

lemma consume_comment_mono (f : Bool) (h h' : ReplyHandler) (hres : consume f h = .ok h') :
    ∃ x, h'.comment = h.comment ++ x := by
  unfold consume at hres
  cases hl : consumeLoop f h with
  | error e => rw [hl] at hres; cases hres
  | ok h1 =>
    rw [hl] at hres
    simp only [] at hres
    cases hd : consumeDispatch h1 with
    | error e => rw [hd] at hres; cases hres
    | ok h2 =>
      rw [hd] at hres
      simp only [] at hres
      obtain ⟨x, hx⟩ := consumeLoop_comment_mono h.buf.length f h h1 le_rfl hl
      rw [consumeFlush_comment f h2 h' hres, consumeDispatch_comment h1 h2 hd]
      exact ⟨x, hx⟩

lemma consume_comment_grows (h h' : ReplyHandler) (hc : h.comment = [])
    (hpf : h.parsedArgs = false) (hb : h.buf ≠ []) (hres : consume false h = .ok h') :
    h'.comment ≠ [] := by
  unfold consume at hres
  cases hl : consumeLoop false h with
  | error e => rw [hl] at hres; cases hres
  | ok h1 =>
    rw [hl] at hres
    simp only [] at hres
    cases hd : consumeDispatch h1 with
    | error e => rw [hd] at hres; cases hres
    | ok h2 =>
      rw [hd] at hres
      simp only [] at hres
      rw [consumeFlush_comment false h2 h' hres, consumeDispatch_comment h1 h2 hd]
      have hcnl : endsNL h.comment = false := by rw [hc]; rfl
      by_cases hgx : h.comment = [] ∧ h.buf.headD 0 ≠ 35
      · rw [consumeLoop_badHead false h hb hpf hgx.1 hgx.2] at hl
        cases hl
      · cases hfind : findNL h.buf with
        | some i =>
          rw [consumeLoop_comment_step false h i hb hpf hgx hcnl hfind] at hl
          obtain ⟨x, hx⟩ := consumeLoop_comment_mono _ false _ h1 le_rfl hl
          rw [hx]
          simp only [hc, List.nil_append]
          have : h.buf.take (i + 1) ≠ [] := by
            obtain ⟨b0, rest, hbc⟩ := List.exists_cons_of_ne_nil hb
            rw [hbc, List.take_succ_cons]
            simp
          simp [this]
        | none =>
          rw [consumeLoop_comment_all false h hb hpf hgx hcnl hfind] at hl
          injection hl with he
          subst he
          simp [hc, hb]

/-! ## Feeding a stream byte-by-byte equals feeding it whole -/

lemma feedChunks_singles : ∀ (s : List Nat) (h : ReplyHandler),
    (h.comment = [] → (h.buf ++ s = [] ∨ (h.buf ++ s).headD 0 = 35)) →
    ParserInv h →
    consume false h = .ok h →
    feedChunks h (s.map (fun b => [b])) = consume false { h with buf := h.buf ++ s } := by
  intro s
  induction s with
  | nil =>
    intro h _ _ hidem
    have hstate : ({ h with buf := h.buf ++ [] } : ReplyHandler) = h := by
      ext <;> simp
    rw [hstate, hidem]
    rfl
  | cons b rest ih =>
    intro h hok hInv hidem
    have hInvg : ParserInv { h with buf := h.buf ++ [b] } := hInv
    have hokg : HeadOk { h with buf := h.buf ++ [b] } := by
      intro hc
      right
      have hd : (h.buf ++ b :: rest).headD 0 = 35 := by
        rcases hok hc with hx | hx
        · exact absurd hx (by simp)
        · exact hx
      by_cases hbnil : h.buf = []
      · rw [hbnil] at hd ⊢
        simpa using hd
      · rw [headD_append h.buf (b :: rest) hbnil] at hd
        show (h.buf ++ [b]).headD 0 = 35
        rw [headD_append h.buf [b] hbnil]
        exact hd
    have hsplit := consume_split { h with buf := h.buf ++ [b] } rest hokg
    have hstate : ({ { h with buf := h.buf ++ [b] } with
        buf := (h.buf ++ [b]) ++ rest } : ReplyHandler) = { h with buf := h.buf ++ b :: rest } := by
      ext <;> simp
    rw [hstate] at hsplit
    rw [hsplit]
    simp only [List.map_cons]
    cases hg : consume false { h with buf := h.buf ++ [b] } with
    | error e =>
      rw [feedChunks, hg]
      rfl
    | ok h1 =>
      rw [feedChunks, hg]
      simp only [exceptStep_ok]
      refine ih h1 ?_ (consume_inv false _ h1 hInvg hg) (consume_false_idem _ h1 hg)
      intro hc1
      exfalso
      obtain ⟨x, hx⟩ := consume_comment_mono false _ h1 hg
      have hcom : h.comment = [] := by
        rcases List.append_eq_nil.mp (by rw [← hx]; exact hc1) with ⟨h1', _⟩
        exact h1'
      have hpf : h.parsedArgs = false := by
        by_cases hpp : h.parsedArgs = true
        · have := hInv.2.1 hpp
          rw [hcom] at this
          simp [endsNL] at this
        · revert hpp; cases h.parsedArgs <;> simp
      exact consume_comment_grows { h with buf := h.buf ++ [b] } h1 hcom hpf (by simp) hg hc1

lemma feedChunks_single (h : ReplyHandler) (c : List Nat) :
    feedChunks h [c] = consume false { h with buf := h.buf ++ c } := by
  rw [feedChunks]
  cases hg : consume false { h with buf := h.buf ++ c } with
  | error e => rfl
  | ok h1 => rfl

lemma ParserInv_initHandler : ParserInv initHandler := by
  refine ⟨?_, ?_, ?_, ?_⟩ <;> intro hx <;> simp [initHandler] at hx

lemma consume_false_initHandler : consume false initHandler = .ok initHandler := by
  unfold consume
  rw [consumeLoop_nil false initHandler rfl]
  simp [consumeDispatch, consumeFlush, initHandler]

lemma take_len_append {α : Type} (l q : List α) : (l ++ q).take l.length = l := by
  have := take_add_append l q 0
  simpa using this

/-- Running the token phase over a space-separated, newline-terminated
argument line: every token is appended to `args`, the flag is set by the
final newline, and the line (delimiters included) is mirrored to the
display. -/
lemma consumeLoop_tokens : ∀ (toks : List (List Nat)) (f : Bool) (h : ReplyHandler)
    (body : List Nat),
    h.parsedArgs = false → endsNL h.comment = true →
    toks ≠ [] → (∀ t ∈ toks, ∀ b ∈ t, b ≠ 10 ∧ b ≠ 32) →
    h.buf = joinSp toks ++ 10 :: body →
    consumeLoop f h = .ok { h with
      parsedArgs := true,
      args := h.args ++ toks,
      display := h.display ++ (joinSp toks ++ [10]),
      buf := body } := by
  intro toks
  induction toks with
  | nil => intro f h body _ _ hne _ _; exact absurd rfl hne
  | cons t ts ih =>
    intro f h body hpf hcnl _ hfree hbuf
    have hfreet : ∀ b ∈ t, b ≠ 10 ∧ b ≠ 32 := hfree t (List.mem_cons_self t ts)
    cases ts with
    | nil =>
      have hbuf1 : h.buf = t ++ 10 :: body := by simpa [joinSp] using hbuf
      have hb : h.buf ≠ [] := by rw [hbuf1]; simp
      have hfd : findDelim h.buf = some (t.length, true) := by
        rw [hbuf1, findDelim_append_delim t body 10 hfreet (Or.inl rfl)]
        rfl
      rw [consumeLoop_token_step f h t.length true hb hpf hcnl hfd]
      rw [consumeLoop_parsed f _ rfl]
      rw [hbuf1]
      rw [take_len_append t (10 :: body), take_len_cons t 10 body, drop_len_cons t 10 body]
      simp [joinSp, List.append_assoc]
    | cons t2 ts2 =>
      have hbuf1 : h.buf = t ++ 32 :: (joinSp (t2 :: ts2) ++ 10 :: body) := by
        rw [hbuf]
        show (t ++ 32 :: joinSp (t2 :: ts2)) ++ 10 :: body = _
        simp [List.append_assoc]
      have hb : h.buf ≠ [] := by rw [hbuf1]; simp
      have hfd : findDelim h.buf = some (t.length, false) := by
        rw [hbuf1, findDelim_append_delim t (joinSp (t2 :: ts2) ++ 10 :: body) 32 hfreet
          (Or.inr rfl)]
        rfl
      rw [consumeLoop_token_step f h t.length false hb hpf hcnl hfd]
      rw [hbuf1]
      rw [take_len_append t (32 :: (joinSp (t2 :: ts2) ++ 10 :: body)),
        take_len_cons t 32 (joinSp (t2 :: ts2) ++ 10 :: body),
        drop_len_cons t 32 (joinSp (t2 :: ts2) ++ 10 :: body)]
      rw [ih f { h with
          parsedArgs := false,
          args := h.args ++ [t],
          display := h.display ++ (t ++ [32]),
          buf := joinSp (t2 :: ts2) ++ 10 :: body } body rfl hcnl (by simp)
        (fun x hx => hfree x (List.mem_cons_of_mem t hx)) rfl]
      simp [joinSp, List.append_assoc]

/-- Full run of the handler over a well-formed single-chunk reply
`<comment line>\n<tok1> <tok2> ... <tokn>\n<body>` whose first token is a
registered command. -/
lemma handleStream_wellFormed (cline : List Nat) (toks : List (List Nat)) (body : List Nat)
    (spec : CommandSpec)
    (hcne : cline ≠ []) (hchead : cline.headD 0 = 35) (hcnomem : 10 ∉ cline)
    (htoks : toks ≠ []) (hfree : ∀ t ∈ toks, ∀ b ∈ t, b ≠ 10 ∧ b ≠ 32)
    (hfind : availableCommands.find? (fun s => s.cmd == toks.headD []) = some spec) :
    handleStream [cline ++ 10 :: (joinSp toks ++ 10 :: body)] =
      .ok { comment := cline ++ [10], parsedArgs := true, args := toks.drop 1, buf := [],
            cmd := some spec.cmd, cmdArgs := toks.drop 1, body := body, bodyClosed := true,
            display := aiPS1 ++ (cline ++ [10]) ++ aiPS1 ++ (joinSp toks ++ [10]) ++ [10] } := by
  have hmid : feedChunks initHandler [cline ++ 10 :: (joinSp toks ++ 10 :: body)] =
      .ok { comment := cline ++ [10], parsedArgs := true, args := toks.drop 1, buf := [],
            cmd := some spec.cmd, cmdArgs := toks.drop 1, body := body, bodyClosed := false,
            display := aiPS1 ++ (cline ++ [10]) ++ aiPS1 ++ (joinSp toks ++ [10]) } := by
    rw [feedChunks_single initHandler (cline ++ 10 :: (joinSp toks ++ 10 :: body))]
    unfold consume
    have hstep := consumeLoop_comment_step false
      { initHandler with buf := initHandler.buf ++ (cline ++ 10 :: (joinSp toks ++ 10 :: body)) }
      cline.length
      (by simp [initHandler])
      (by simp [initHandler])
      (by
        intro hx
        apply hx.2
        show (initHandler.buf ++ (cline ++ 10 :: (joinSp toks ++ 10 :: body))).headD 0 = 35
        simp only [initHandler, List.nil_append]
        rw [headD_append cline (10 :: (joinSp toks ++ 10 :: body)) hcne]
        exact hchead)
      (by simp [initHandler, endsNL])
      (by
        show findNL (initHandler.buf ++ (cline ++ 10 :: (joinSp toks ++ 10 :: body))) = _
        simp only [initHandler, List.nil_append]
        exact findNL_append_delim cline (joinSp toks ++ 10 :: body) hcnomem)
    rw [hstep]
    have hstate1 : ({ { initHandler with
        buf := initHandler.buf ++ (cline ++ 10 :: (joinSp toks ++ 10 :: body)) } with
      comment := ({ initHandler with
        buf := initHandler.buf ++ (cline ++ 10 :: (joinSp toks ++ 10 :: body)) } :
          ReplyHandler).comment ++
        (({ initHandler with
          buf := initHandler.buf ++ (cline ++ 10 :: (joinSp toks ++ 10 :: body)) } :
            ReplyHandler).buf.take (cline.length + 1)),
      display := ({ initHandler with
        buf := initHandler.buf ++ (cline ++ 10 :: (joinSp toks ++ 10 :: body)) } :
          ReplyHandler).display ++
        (({ initHandler with
          buf := initHandler.buf ++ (cline ++ 10 :: (joinSp toks ++ 10 :: body)) } :
            ReplyHandler).buf.take (cline.length + 1)) ++ aiPS1,
      buf := ({ initHandler with
        buf := initHandler.buf ++ (cline ++ 10 :: (joinSp toks ++ 10 :: body)) } :
          ReplyHandler).buf.drop (cline.length + 1) } : ReplyHandler) =
      { comment := cline ++ [10], parsedArgs := false, args := [],
        buf := joinSp toks ++ 10 :: body, cmd := none, cmdArgs := [], body := [],
        bodyClosed := false, display := aiPS1 ++ (cline ++ [10]) ++ aiPS1 } := by
      ext <;> simp [initHandler, take_len_cons, drop_len_cons]
    rw [hstate1]
    rw [consumeLoop_tokens toks false
      { comment := cline ++ [10], parsedArgs := false, args := [],
        buf := joinSp toks ++ 10 :: body, cmd := none, cmdArgs := [], body := [],
        bodyClosed := false, display := aiPS1 ++ (cline ++ [10]) ++ aiPS1 } body rfl
      (by simpa using endsNL_concat cline) htoks hfree rfl]
    simp only []
    unfold consumeDispatch
    rw [if_pos (show (none : Option (List Nat)) = none ∧ true = true from ⟨rfl, rfl⟩)]
    simp only [List.nil_append]
    rw [hfind]
    simp only []
    unfold consumeFlush
    rw [if_pos (show true = true from rfl), if_neg (Option.some_ne_none spec.cmd)]
    congr 1
  unfold handleStream
  rw [hmid]
  simp only []
  have hfin : consume true
      { comment := cline ++ [10], parsedArgs := true, args := toks.drop 1, buf := [],
        cmd := some spec.cmd, cmdArgs := toks.drop 1, body := body, bodyClosed := false,
        display := aiPS1 ++ (cline ++ [10]) ++ aiPS1 ++ (joinSp toks ++ [10]) } =
      .ok { comment := cline ++ [10], parsedArgs := true, args := toks.drop 1, buf := [],
            cmd := some spec.cmd, cmdArgs := toks.drop 1, body := body, bodyClosed := true,
            display := aiPS1 ++ (cline ++ [10]) ++ aiPS1 ++ (joinSp toks ++ [10]) } := by
    unfold consume
    rw [consumeLoop_parsed true _ rfl]
    simp only []
    unfold consumeDispatch
    rw [if_neg (show ¬((some spec.cmd : Option (List Nat)) = none ∧ true = true) from
      fun hx => Option.some_ne_none spec.cmd hx.1)]
    simp only []
    unfold consumeFlush
    rw [if_pos (show true = true from rfl), if_neg (Option.some_ne_none spec.cmd)]
    congr 1
    ext <;> simp
  rw [hfin]
  simp only []
  rw [if_neg (show ¬((some spec.cmd : Option (List Nat)) = none) from Option.some_ne_none spec.cmd)]

lemma find_registered (name : List Nat) (hmem : name ∈ availableCommands.map CommandSpec.cmd) :
    ∃ spec, availableCommands.find? (fun s => s.cmd == name) = some spec ∧ spec.cmd = name := by
  obtain ⟨spec0, hspec0, heq0⟩ := List.mem_map.mp hmem
  cases hfs : availableCommands.find? (fun s => s.cmd == name) with
  | none =>
    have := (List.find?_eq_none.mp hfs) spec0 hspec0
    simp [heq0] at this
  | some spec =>
    refine ⟨spec, rfl, ?_⟩
    have := List.find?_some hfs
    simpa using this

/-- Full run of the handler over a single-chunk reply whose first token
matches no registered command: the dispatch block fails. -/
lemma handleStream_unknown (cline : List Nat) (toks : List (List Nat)) (body : List Nat)
    (hcne : cline ≠ []) (hchead : cline.headD 0 = 35) (hcnomem : 10 ∉ cline)
    (htoks : toks ≠ []) (hfree : ∀ t ∈ toks, ∀ b ∈ t, b ≠ 10 ∧ b ≠ 32)
    (hnone : availableCommands.find? (fun s => s.cmd == toks.headD []) = none) :
    handleStream [cline ++ 10 :: (joinSp toks ++ 10 :: body)] =
      .error (.invalidCommand (toks.headD [])) := by
  unfold handleStream
  rw [feedChunks_single initHandler (cline ++ 10 :: (joinSp toks ++ 10 :: body))]
  unfold consume
  have hstep := consumeLoop_comment_step false
    { initHandler with buf := initHandler.buf ++ (cline ++ 10 :: (joinSp toks ++ 10 :: body)) }
    cline.length
    (by simp [initHandler])
    (by simp [initHandler])
    (by
      intro hx
      apply hx.2
      show (initHandler.buf ++ (cline ++ 10 :: (joinSp toks ++ 10 :: body))).headD 0 = 35
      simp only [initHandler, List.nil_append]
      rw [headD_append cline (10 :: (joinSp toks ++ 10 :: body)) hcne]
      exact hchead)
    (by simp [initHandler, endsNL])
    (by
      show findNL (initHandler.buf ++ (cline ++ 10 :: (joinSp toks ++ 10 :: body))) = _
      simp only [initHandler, List.nil_append]
      exact findNL_append_delim cline (joinSp toks ++ 10 :: body) hcnomem)
  rw [hstep]
  have hstate1 : ({ { initHandler with
      buf := initHandler.buf ++ (cline ++ 10 :: (joinSp toks ++ 10 :: body)) } with
    comment := ({ initHandler with
      buf := initHandler.buf ++ (cline ++ 10 :: (joinSp toks ++ 10 :: body)) } :
        ReplyHandler).comment ++
      (({ initHandler with
        buf := initHandler.buf ++ (cline ++ 10 :: (joinSp toks ++ 10 :: body)) } :
          ReplyHandler).buf.take (cline.length + 1)),
    display := ({ initHandler with
      buf := initHandler.buf ++ (cline ++ 10 :: (joinSp toks ++ 10 :: body)) } :
        ReplyHandler).display ++
      (({ initHandler with
        buf := initHandler.buf ++ (cline ++ 10 :: (joinSp toks ++ 10 :: body)) } :
          ReplyHandler).buf.take (cline.length + 1)) ++ aiPS1,
    buf := ({ initHandler with
      buf := initHandler.buf ++ (cline ++ 10 :: (joinSp toks ++ 10 :: body)) } :
        ReplyHandler).buf.drop (cline.length + 1) } : ReplyHandler) =
    { comment := cline ++ [10], parsedArgs := false, args := [],
      buf := joinSp toks ++ 10 :: body, cmd := none, cmdArgs := [], body := [],
      bodyClosed := false, display := aiPS1 ++ (cline ++ [10]) ++ aiPS1 } := by
    ext <;> simp [initHandler, take_len_cons, drop_len_cons]
  rw [hstate1]
  rw [consumeLoop_tokens toks false
    { comment := cline ++ [10], parsedArgs := false, args := [],
      buf := joinSp toks ++ 10 :: body, cmd := none, cmdArgs := [], body := [],
      bodyClosed := false, display := aiPS1 ++ (cline ++ [10]) ++ aiPS1 } body rfl
    (by simpa using endsNL_concat cline) htoks hfree rfl]
  simp only []
  unfold consumeDispatch
  rw [if_pos (show (none : Option (List Nat)) = none ∧ true = true from ⟨rfl, rfl⟩)]
  simp only [List.nil_append]
  rw [hnone]

lemma handleStream_badHead (b0 : Nat) (rest : List Nat) (hne : b0 ≠ 35) :
    handleStream [b0 :: rest] = .error (.unexpectedInput (b0 :: rest)) := by
  unfold handleStream
  rw [feedChunks_single initHandler (b0 :: rest)]
  unfold consume
  rw [consumeLoop_badHead false { initHandler with buf := initHandler.buf ++ (b0 :: rest) }
    (by simp [initHandler]) (by simp [initHandler]) (by simp [initHandler])
    (by simpa [initHandler] using hne)]
  simp [initHandler]

lemma handleStream_badHead_bytes (b0 : Nat) (rest : List Nat) (hne : b0 ≠ 35) :
    handleStream ((b0 :: rest).map (fun b => [b])) = .error (.unexpectedInput [b0]) := by
  unfold handleStream
  simp only [List.map_cons]
  have herr : consume false { initHandler with buf := initHandler.buf ++ [b0] } =
      .error (.unexpectedInput [b0]) := by
    unfold consume
    rw [consumeLoop_badHead false { initHandler with buf := initHandler.buf ++ [b0] }
      (by simp [initHandler]) (by simp [initHandler]) (by simp [initHandler])
      (by simpa [initHandler] using hne)]
    simp [initHandler]
  rw [feedChunks, herr]

lemma feedStates_badHead : ∀ (chunks : List (List Nat)) (b0 : Nat) (rest : List Nat),
    b0 ≠ 35 → chunks.flatten = b0 :: rest →
    ∀ g ∈ feedStates initHandler chunks, g.cmd = none := by
  intro chunks
  induction chunks with
  | nil =>
    intro b0 rest _ _ g hg
    simp [feedStates] at hg
  | cons c cs ih =>
    intro b0 rest hne hj g hg
    cases c with
    | nil =>
      have hcons : consume false
          { initHandler with buf := initHandler.buf ++ ([] : List Nat) } = .ok initHandler := by
        have hstate : ({ initHandler with buf := initHandler.buf ++ ([] : List Nat) } :
            ReplyHandler) = initHandler := by
          ext <;> simp [initHandler]
        rw [hstate]
        exact consume_false_initHandler
      rw [feedStates, hcons] at hg
      rcases List.mem_cons.mp hg with hg | hg
      · subst hg; rfl
      · exact ih b0 rest hne (by simpa using hj) g hg
    | cons c0 c' =>
      have hj' : c0 :: (c' ++ cs.flatten) = b0 :: rest := by simpa using hj
      have hc0 : c0 = b0 := by injection hj'
      have herr : consume false { initHandler with buf := initHandler.buf ++ (c0 :: c') } =
          .error (.unexpectedInput (c0 :: c')) := by
        unfold consume
        rw [consumeLoop_badHead false { initHandler with buf := initHandler.buf ++ (c0 :: c') }
          (by simp [initHandler]) (by simp [initHandler]) (by simp [initHandler])
          (by simp [initHandler, hc0, hne])]
        simp [initHandler]
      rw [feedStates, herr] at hg
      simp at hg

/-- Full run of the handler over a reply whose stream ends while the first
token is still incomplete (no delimiter after the comment line): the
finalize pass appends the remaining bytes as a token and mirrors them, but
`parsedArgs` is never set, so no lookup or dispatch happens and the run
ends successfully with no command. -/
lemma handleStream_truncated (cline : List Nat) (tok : List Nat)
    (hcne : cline ≠ []) (hchead : cline.headD 0 = 35) (hcnomem : 10 ∉ cline)
    (htok : tok ≠ []) (hfree : ∀ b ∈ tok, b ≠ 10 ∧ b ≠ 32) :
    handleStream [cline ++ 10 :: tok] =
      .ok { comment := cline ++ [10], parsedArgs := false, args := [tok], buf := [],
            cmd := none, cmdArgs := [], body := [], bodyClosed := false,
            display := aiPS1 ++ (cline ++ [10]) ++ aiPS1 ++ tok } := by
  have hfd : findDelim tok = none := (findDelim_none_iff tok).mpr hfree
  have hmid : feedChunks initHandler [cline ++ 10 :: tok] =
      .ok { comment := cline ++ [10], parsedArgs := false, args := [],
            buf := tok, cmd := none, cmdArgs := [], body := [],
            bodyClosed := false, display := aiPS1 ++ (cline ++ [10]) ++ aiPS1 } := by
    rw [feedChunks_single initHandler (cline ++ 10 :: tok)]
    unfold consume
    have hstep := consumeLoop_comment_step false
      { initHandler with buf := initHandler.buf ++ (cline ++ 10 :: tok) } cline.length
      (by simp [initHandler])
      (by simp [initHandler])
      (by
        intro hx
        apply hx.2
        show (initHandler.buf ++ (cline ++ 10 :: tok)).headD 0 = 35
        simp only [initHandler, List.nil_append]
        rw [headD_append cline (10 :: tok) hcne]
        exact hchead)
      (by simp [initHandler, endsNL])
      (by
        show findNL (initHandler.buf ++ (cline ++ 10 :: tok)) = _
        simp only [initHandler, List.nil_append]
        exact findNL_append_delim cline tok hcnomem)
    rw [hstep]
    have hstate1 : ({ { initHandler with buf := initHandler.buf ++ (cline ++ 10 :: tok) } with
      comment := ({ initHandler with buf := initHandler.buf ++ (cline ++ 10 :: tok) } :
          ReplyHandler).comment ++
        (({ initHandler with buf := initHandler.buf ++ (cline ++ 10 :: tok) } :
            ReplyHandler).buf.take (cline.length + 1)),
      display := ({ initHandler with buf := initHandler.buf ++ (cline ++ 10 :: tok) } :
          ReplyHandler).display ++
        (({ initHandler with buf := initHandler.buf ++ (cline ++ 10 :: tok) } :
            ReplyHandler).buf.take (cline.length + 1)) ++ aiPS1,
      buf := ({ initHandler with buf := initHandler.buf ++ (cline ++ 10 :: tok) } :
          ReplyHandler).buf.drop (cline.length + 1) } : ReplyHandler) =
      { comment := cline ++ [10], parsedArgs := false, args := [],
        buf := tok, cmd := none, cmdArgs := [], body := [],
        bodyClosed := false, display := aiPS1 ++ (cline ++ [10]) ++ aiPS1 } := by
      ext <;> simp [initHandler, take_len_cons, drop_len_cons]
    rw [hstate1]
    rw [consumeLoop_token_none_false
      { comment := cline ++ [10], parsedArgs := false, args := [],
        buf := tok, cmd := none, cmdArgs := [], body := [],
        bodyClosed := false, display := aiPS1 ++ (cline ++ [10]) ++ aiPS1 }
      htok rfl (by simpa using endsNL_concat cline) hfd]
    simp only []
    unfold consumeDispatch
    rw [if_neg (show ¬((none : Option (List Nat)) = none ∧ false = true) by simp)]
    simp only []
    unfold consumeFlush
    rw [if_neg (show ¬(false = true) by simp)]
  unfold handleStream
  rw [hmid]
  simp only []
  have hfin : consume true
      { comment := cline ++ [10], parsedArgs := false, args := [],
        buf := tok, cmd := none, cmdArgs := [], body := [],
        bodyClosed := false, display := aiPS1 ++ (cline ++ [10]) ++ aiPS1 } =
      .ok { comment := cline ++ [10], parsedArgs := false, args := [tok], buf := [],
            cmd := none, cmdArgs := [], body := [], bodyClosed := false,
            display := aiPS1 ++ (cline ++ [10]) ++ aiPS1 ++ tok } := by
    unfold consume
    rw [consumeLoop_token_none_true
      { comment := cline ++ [10], parsedArgs := false, args := [],
        buf := tok, cmd := none, cmdArgs := [], body := [],
        bodyClosed := false, display := aiPS1 ++ (cline ++ [10]) ++ aiPS1 }
      htok rfl (by simpa using endsNL_concat cline) hfd]
    simp only []
    unfold consumeDispatch
    rw [if_neg (show ¬((none : Option (List Nat)) = none ∧ false = true) by simp)]
    simp only []
    unfold consumeFlush
    rw [if_neg (show ¬(false = true) by simp)]
    rfl
  rw [hfin]
  simp

/-! ## Quoting and substring lemmas for the confirmation hint -/

lemma quoteChar_plain (c : Char) (h32 : 32 ≤ c.toNat) (h126 : c.toNat ≤ 126)
    (hq : c ≠ '"') (hbs : c ≠ '\\') : quoteChar c = [c] := by
  unfold quoteChar
  rw [if_neg (show ¬(c = '"' ∨ c = '\\') by rintro (h | h); exact hq h; exact hbs h),
    if_pos ⟨h32, h126⟩]

lemma flatMap_quoteChar_plain : ∀ (l : List Char),
    (∀ c ∈ l, 32 ≤ c.toNat ∧ c.toNat ≤ 126 ∧ c ≠ '"' ∧ c ≠ '\\') →
    l.flatMap quoteChar = l := by
  intro l
  induction l with
  | nil => intro _; rfl
  | cons c cs ih =>
    intro hp
    have hc := hp c (List.mem_cons_self c cs)
    rw [List.flatMap_cons, quoteChar_plain c hc.1 hc.2.1 hc.2.2.1 hc.2.2.2,
      ih (fun x hx => hp x (List.mem_cons_of_mem c hx))]
    rfl

lemma isPrefixB_append_self {α : Type} [DecidableEq α] : ∀ (l r : List α),
    isPrefixB l (l ++ r) = true := by
  intro l
  induction l with
  | nil => intro r; rfl
  | cons a as ih =>
    intro r
    simp [isPrefixB, ih]

lemma containsB_nil_pat {α : Type} [DecidableEq α] : ∀ (l : List α), containsB [] l = true := by
  intro l
  cases l with
  | nil => rfl
  | cons b bs => simp [containsB, isPrefixB]

lemma containsB_cons_of {α : Type} [DecidableEq α] (p : List α) (b : α) (l : List α)
    (h : containsB p l = true) : containsB p (b :: l) = true := by
  simp [containsB, h]

lemma containsB_self_append {α : Type} [DecidableEq α] (p r : List α) :
    containsB p (p ++ r) = true := by
  cases p with
  | nil => exact containsB_nil_pat _
  | cons c cs =>
    simp only [containsB, List.cons_append, Bool.or_eq_true]
    exact Or.inl (by simp [isPrefixB, isPrefixB_append_self cs r])

lemma containsB_append_left {α : Type} [DecidableEq α] : ∀ (l p r : List α),
    containsB p r = true → containsB p (l ++ r) = true := by
  intro l
  induction l with
  | nil => intro p r h; exact h
  | cons a as ih =>
    intro p r h
    exact containsB_cons_of p a (as ++ r) (ih p r h)

/-! ## Claim theorems -/

/-- C1: for every well-formed reply of the shape
`# <comment>\n<command> <arg1> <arg2>\n<body>` where `<command>` is a
registered command name, processing the reply to stream end dispatches
exactly that command with argument list `[arg1, arg2]` (the command name
excluded) and a body stream whose fully-read contents equal `<body>`
byte-for-byte. -/
theorem c1_wellformed_reply_dispatch (comment cmdName a1 a2 body : List Nat)
    (hc : 10 ∉ comment)
    (hcmd : ∀ b ∈ cmdName, b ≠ 10 ∧ b ≠ 32)
    (ha1 : ∀ b ∈ a1, b ≠ 10 ∧ b ≠ 32)
    (ha2 : ∀ b ∈ a2, b ≠ 10 ∧ b ≠ 32)
    (hreg : cmdName ∈ availableCommands.map CommandSpec.cmd) :
    ∃ h', handleStream [(35 :: 32 :: comment) ++ 10 :: (joinSp [cmdName, a1, a2] ++ 10 :: body)]
        = .ok h' ∧ h'.cmd = some cmdName ∧ h'.cmdArgs = [a1, a2] ∧
      h'.body = body ∧ h'.bodyClosed = true := by
  obtain ⟨spec, hfind, hspec⟩ := find_registered cmdName hreg
  refine ⟨_, handleStream_wellFormed (35 :: 32 :: comment) [cmdName, a1, a2] body spec
    (by simp) (by simp) (by simp [hc]) (by simp) ?_ hfind, ?_, rfl, rfl, rfl⟩
  · intro t ht
    simp only [List.mem_cons, List.mem_singleton] at ht
    rcases ht with rfl | rfl | rfl | hx
    · exact hcmd
    · exact ha1
    · exact ha2
    · simp at hx
  · simp [hspec]

/-- Witness for C1 at the concrete reply `# c\ncat a b\nz`. -/
theorem c1_witness :
    (10 ∉ ([99] : List Nat)) ∧
    (∀ b ∈ strBytes ("cat"), b ≠ 10 ∧ b ≠ 32) ∧
    (∀ b ∈ ([97] : List Nat), b ≠ 10 ∧ b ≠ 32) ∧
    (∀ b ∈ ([98] : List Nat), b ≠ 10 ∧ b ≠ 32) ∧
    strBytes ("cat") ∈ availableCommands.map CommandSpec.cmd ∧
    (∃ h', handleStream
        [(35 :: 32 :: [99]) ++ 10 :: (joinSp [strBytes ("cat"), [97], [98]] ++ 10 :: [122])]
        = .ok h' ∧ h'.cmd = some (strBytes ("cat")) ∧ h'.cmdArgs = [[97], [98]] ∧
      h'.body = [122] ∧ h'.bodyClosed = true) :=
  ⟨by decide, by decide, by decide, by decide, by decide,
    c1_wellformed_reply_dispatch [99] (strBytes ("cat")) [97] [98] [122]
      (by decide) (by decide) (by decide) (by decide) (by decide)⟩

/-- C2 (evaluating the code at the failing input): for the reply
`# c\nprompt` whose stream ends while the token `prompt` is incomplete,
the remaining bytes are recorded as a final token, but the args-complete
flag is never set, so no command lookup or dispatch happens — the run ends
successfully with no command, although `prompt` is registered. -/
theorem c2_truncated_token_not_dispatched :
    ∃ h', handleStream [strBytes ("# c") ++ 10 :: strBytes ("prompt")] = .ok h' ∧
      h'.args = [strBytes ("prompt")] ∧ h'.parsedArgs = false ∧ h'.cmd = none ∧
      strBytes ("prompt") ∈ availableCommands.map CommandSpec.cmd :=
  ⟨_, handleStream_truncated (strBytes ("# c")) (strBytes ("prompt"))
      (by decide) (by decide) (by decide) (by decide) (by decide),
    rfl, rfl, rfl, by decide⟩

/-- C3 (amended): delivering a reply one byte at a time and as a single
chunk produce identical outcomes (same dispatch, arguments, body, display
and error) whenever the reply is empty or begins with the comment marker;
a reply beginning with any other byte fails with the unexpected-input
error under both deliveries, but the quoted buffer in the error differs
(only the bytes buffered at failure time are reported). -/
theorem c3_chunk_boundary_independence (s : List Nat) :
    ((s = [] ∨ s.headD 0 = 35) →
      handleStream (s.map (fun b => [b])) = handleStream [s]) ∧
    (∀ b0 rest, s = b0 :: rest → b0 ≠ 35 →
      handleStream (s.map (fun b => [b])) = .error (.unexpectedInput [b0]) ∧
      handleStream [s] = .error (.unexpectedInput s)) := by
  constructor
  · intro hs
    have hfeed : feedChunks initHandler (s.map (fun b => [b])) =
        consume false { initHandler with buf := initHandler.buf ++ s } := by
      refine feedChunks_singles s initHandler ?_ ParserInv_initHandler consume_false_initHandler
      intro _
      rcases hs with hs | hs
      · left; simp [initHandler, hs]
      · right
        show (initHandler.buf ++ s).headD 0 = 35
        simpa [initHandler] using hs
    unfold handleStream
    rw [hfeed, feedChunks_single initHandler s]
  · intro b0 rest hs hne
    subst hs
    exact ⟨handleStream_badHead_bytes b0 rest hne, handleStream_badHead b0 rest hne⟩

/-- Witness for C3 (amended) at the reply `# c\nls\n`. -/
theorem c3_witness :
    ((strBytes ("# c\nls\n")).headD 0 = 35) ∧
    handleStream ((strBytes ("# c\nls\n")).map (fun b => [b])) =
      handleStream [strBytes ("# c\nls\n")] :=
  ⟨by decide, (c3_chunk_boundary_independence (strBytes ("# c\nls\n"))).1 (Or.inr (by decide))⟩

/-- Counterexample to C3 as stated: the reply `ab` gives different error
values under 1-byte and single-chunk delivery (the quoted unexpected-input
text is the currently-buffered bytes, which depend on chunking). -/
theorem c3_counterexample : handleStream [[97], [98]] ≠ handleStream [[97, 98]] := by
  have h1 : handleStream (([97, 98] : List Nat).map (fun b => [b])) =
      .error (.unexpectedInput [97]) := handleStream_badHead_bytes 97 [98] (by decide)
  have h2 : handleStream [[97, 98]] = .error (.unexpectedInput [97, 98]) :=
    handleStream_badHead 97 [98] (by decide)
  intro hcontra
  rw [show ([[97], [98]] : List (List Nat)) = ([97, 98] : List Nat).map (fun b => [b]) from rfl,
    h1, h2] at hcontra
  simp at hcontra

/-- C4: a reply whose first byte is not `'#'` makes the parser fail with
the recoverable unexpected-input (`FormatError`) error; no command is ever
dispatched under any chunking of the reply; and the session loop reacts by
re-injecting the error text annotated with the corrective hint as the next
turn's input instead of terminating. -/
theorem c4_missing_comment_marker (s : List Nat) (b0 : Nat) (rest : List Nat)
    (hs : s = b0 :: rest) (hne : b0 ≠ 35) :
    handleStream [s] = .error (.unexpectedInput s) ∧
    (∀ chunks : List (List Nat), chunks.flatten = s →
      ∀ g ∈ feedStates initHandler chunks, g.cmd = none) ∧
    sessionStep (.error (.fixable (.unexpectedInput s))) =
      .continueWith (fixMessage (.unexpectedInput s)) := by
  subst hs
  exact ⟨handleStream_badHead b0 rest hne,
    fun chunks hj => feedStates_badHead chunks b0 rest hne hj, rfl⟩

/-- Witness for C4 at the reply `hello`. -/
theorem c4_witness :
    (strBytes ("hello") = 104 :: strBytes ("ello")) ∧ ((104 : Nat) ≠ 35) ∧
    (handleStream [strBytes ("hello")] = .error (.unexpectedInput (strBytes ("hello"))) ∧
    (∀ chunks : List (List Nat), chunks.flatten = strBytes ("hello") →
      ∀ g ∈ feedStates initHandler chunks, g.cmd = none) ∧
    sessionStep (.error (.fixable (.unexpectedInput (strBytes ("hello"))))) =
      .continueWith (fixMessage (.unexpectedInput (strBytes ("hello"))))) :=
  ⟨by decide, by decide,
    c4_missing_comment_marker (strBytes ("hello")) 104 (strBytes ("ello"))
      (by decide) (by decide)⟩

/-- C5: a reply whose comment line is followed by a newline-terminated
command line whose first token matches no registered command name
(exact, case-sensitive comparison) fails with the recoverable
invalid-command (`UnknownCommandError`) error; no handler is started. -/
theorem c5_unknown_command (comment : List Nat) (toks : List (List Nat)) (body : List Nat)
    (hc : 10 ∉ comment) (htoks : toks ≠ [])
    (hfree : ∀ t ∈ toks, ∀ b ∈ t, b ≠ 10 ∧ b ≠ 32)
    (hno : ∀ spec ∈ availableCommands, spec.cmd ≠ toks.headD []) :
    handleStream [(35 :: comment) ++ 10 :: (joinSp toks ++ 10 :: body)] =
      .error (.invalidCommand (toks.headD [])) ∧
    containsB (strBytes ("prompt")) (hintText (.invalidCommand (toks.headD []))) = true ∧
    sessionStep (.error (.fixable (.invalidCommand (toks.headD [])))) =
      .continueWith (fixMessage (.invalidCommand (toks.headD []))) :=
  ⟨handleStream_unknown (35 :: comment) toks body (by simp) (by simp) (by simp [hc]) htoks hfree
    (List.find?_eq_none.mpr (fun x hx => by simpa using hno x hx)),
    by simp only [hintText]; decide, rfl⟩

/-- Witness for C5 at the reply `# c\nfoo\n`. -/
theorem c5_witness :
    (10 ∉ ([32, 99] : List Nat)) ∧
    (∀ t ∈ [strBytes ("foo")], ∀ b ∈ t, b ≠ 10 ∧ b ≠ 32) ∧
    (∀ spec ∈ availableCommands, spec.cmd ≠ strBytes ("foo")) ∧
    (handleStream [(35 :: [32, 99]) ++ 10 :: (joinSp [strBytes ("foo")] ++ 10 :: [])] =
      .error (.invalidCommand (strBytes ("foo"))) ∧
    containsB (strBytes ("prompt")) (hintText (.invalidCommand (strBytes ("foo")))) = true ∧
    sessionStep (.error (.fixable (.invalidCommand (strBytes ("foo"))))) =
      .continueWith (fixMessage (.invalidCommand (strBytes ("foo"))))) :=
  ⟨by decide, by decide, by decide,
    c5_unknown_command [32, 99] [strBytes ("foo")] [] (by decide) (by decide)
      (by decide) (by decide)⟩

/-- C6: the phase-ordering invariant — no argument token before the
comment ends in a newline, the args-complete flag only with the comment
finished and the command name recorded (or the command dispatched), and no
body bytes forwarded before the flag is set — holds initially and is
preserved by every `consume` step on every appended input chunk,
finalizing or not. -/
theorem c6_phase_invariant :
    ParserInv initHandler ∧
    ∀ (f : Bool) (h h' : ReplyHandler) (p : List Nat),
      ParserInv h → consume f { h with buf := h.buf ++ p } = .ok h' → ParserInv h' :=
  ⟨ParserInv_initHandler,
    fun f h h' p hInv hres => consume_inv f { h with buf := h.buf ++ p } h' hInv hres⟩

/-- Witness for C6: one comment-phase chunk starting from the initial
state. -/
theorem c6_witness :
    ParserInv initHandler ∧
    (consume false { initHandler with buf := initHandler.buf ++ strBytes ("# x") } =
      .ok { comment := strBytes ("# x"), parsedArgs := false, args := [], buf := [],
            cmd := none, cmdArgs := [], body := [], bodyClosed := false,
            display := aiPS1 ++ strBytes ("# x") }) ∧
    ParserInv { comment := strBytes ("# x"), parsedArgs := false, args := [], buf := [],
                cmd := none, cmdArgs := [], body := [], bodyClosed := false,
                display := aiPS1 ++ strBytes ("# x") } := by
  have hrun : consume false { initHandler with buf := initHandler.buf ++ strBytes ("# x") } =
      .ok { comment := strBytes ("# x"), parsedArgs := false, args := [], buf := [],
            cmd := none, cmdArgs := [], body := [], bodyClosed := false,
            display := aiPS1 ++ strBytes ("# x") } := by
    unfold consume
    rw [consumeLoop_comment_all false
      { initHandler with buf := initHandler.buf ++ strBytes ("# x") }
      (by decide) (by decide) (by decide) (by decide) (by decide)]
    decide
  exact ⟨c6_phase_invariant.1, hrun,
    c6_phase_invariant.2 false initHandler _ (strBytes ("# x")) c6_phase_invariant.1 hrun⟩

/-- C7 (amended): for a well-formed dispatched reply, the parser mirrors
the comment line and the token line (delimiters included) to the display —
prefixed and separated by the prompt decoration, with the final newline
written by `Handle` — while the body bytes go only to the command's body
stream; they are not written to the display by the parser. -/
theorem c7_display_mirroring (comment : List Nat) (toks : List (List Nat)) (body : List Nat)
    (hc : 10 ∉ comment) (htoks : toks ≠ [])
    (hfree : ∀ t ∈ toks, ∀ b ∈ t, b ≠ 10 ∧ b ≠ 32)
    (hreg : toks.headD [] ∈ availableCommands.map CommandSpec.cmd) :
    ∃ h', handleStream [(35 :: comment) ++ 10 :: (joinSp toks ++ 10 :: body)] = .ok h' ∧
      h'.display =
        aiPS1 ++ ((35 :: comment) ++ [10]) ++ aiPS1 ++ (joinSp toks ++ [10]) ++ [10] ∧
      h'.body = body := by
  obtain ⟨spec, hfind, _⟩ := find_registered _ hreg
  exact ⟨_, handleStream_wellFormed (35 :: comment) toks body spec
    (by simp) (by simp) (by simp [hc]) htoks hfree hfind, rfl, rfl⟩

/-- Witness for C7 (amended) at the reply `# c\nls a\nzq`. -/
theorem c7_witness :
    (10 ∉ ([32, 99] : List Nat)) ∧
    (∀ t ∈ [strBytes ("ls"), [97]], ∀ b ∈ t, b ≠ 10 ∧ b ≠ 32) ∧
    ([strBytes ("ls"), [97]].headD [] ∈ availableCommands.map CommandSpec.cmd) ∧
    (∃ h', handleStream
        [(35 :: [32, 99]) ++ 10 :: (joinSp [strBytes ("ls"), [97]] ++ 10 :: [122, 113])]
        = .ok h' ∧
      h'.display = aiPS1 ++ ((35 :: [32, 99]) ++ [10]) ++ aiPS1 ++
        (joinSp [strBytes ("ls"), [97]] ++ [10]) ++ [10] ∧
      h'.body = [122, 113]) :=
  ⟨by decide, by decide, by decide,
    c7_display_mirroring [32, 99] [strBytes ("ls"), [97]] [122, 113]
      (by decide) (by decide) (by decide) (by decide)⟩

/-- Counterexample to C7 as stated: for the reply `# c\nprompt\nzq` the
body bytes `zq` are forwarded to the command's body stream but are not
written to the display by the parser (they occur nowhere in the display
output). -/
theorem c7_counterexample :
    ∃ h', handleStream [strBytes ("# c") ++ 10 :: (joinSp [strBytes ("prompt")] ++
        10 :: [122, 113])] = .ok h' ∧
      h'.body = [122, 113] ∧ containsB [122, 113] h'.display = false := by
  obtain ⟨spec, hfind, _⟩ := find_registered (strBytes ("prompt")) (by decide)
  refine ⟨_, handleStream_wellFormed (strBytes ("# c")) [strBytes ("prompt")] [122, 113] spec
    (by decide) (by decide) (by decide) (by decide) (by decide)
    (by simpa using hfind), rfl, ?_⟩
  simp only []
  decide

/-- C8 (amended): when the confirmation reply is not affirmative, the
write handler reads the body, issues the confirmation prompt, writes no
file, and returns the permission-denied error whose hint quotes the
trimmed reply; when the trimmed reply needs no quoting escapes, the hint
contains it verbatim. -/
theorem c8_denied_write (path : List Char) (body : List Nat) (reply : List Char)
    (hdeny : (Confirmf reply).1 = false) :
    runWrite [path] body reply = (.denied (Confirmf reply).2, [.readBody, .confirmPrompt]) ∧
    ((∀ c ∈ (Confirmf reply).2, 32 ≤ c.toNat ∧ c.toNat ≤ 126 ∧ c ≠ '"' ∧ c ≠ '\\') →
      containsB (Confirmf reply).2 (hintDenied (Confirmf reply).2) = true) := by
  constructor
  · simp [runWrite, hdeny]
  · intro hplain
    unfold hintDenied quoteString
    rw [flatMap_quoteChar_plain _ hplain]
    exact containsB_append_left _ _ _ (containsB_cons_of _ _ _ (containsB_self_append _ _))

/-- Witness for C8 (amended) at the denial reply `no, typo`. -/
theorem c8_witness :
    ((Confirmf ['n', 'o', ',', ' ', 't', 'y', 'p', 'o']).1 = false) ∧
    (runWrite ([['p']] : List (List Char)) [104] ['n', 'o', ',', ' ', 't', 'y', 'p', 'o'] =
      (.denied (Confirmf ['n', 'o', ',', ' ', 't', 'y', 'p', 'o']).2,
        [.readBody, .confirmPrompt]) ∧
    ((∀ c ∈ (Confirmf ['n', 'o', ',', ' ', 't', 'y', 'p', 'o']).2,
        32 ≤ c.toNat ∧ c.toNat ≤ 126 ∧ c ≠ '"' ∧ c ≠ '\\') →
      containsB (Confirmf ['n', 'o', ',', ' ', 't', 'y', 'p', 'o']).2
        (hintDenied (Confirmf ['n', 'o', ',', ' ', 't', 'y', 'p', 'o']).2) = true)) :=
  ⟨by decide, c8_denied_write ['p'] [104] ['n', 'o', ',', ' ', 't', 'y', 'p', 'o'] (by decide)⟩

/-- Counterexample to C8 as stated: for the denial reply ` no, typo`
(leading space) the handler denies and writes no file, but the hint quotes
the whitespace-trimmed reply, so the raw reply text does not occur in the
hint verbatim. -/
theorem c8_counterexample :
    (runWrite ([['p']] : List (List Char)) [104] [' ', 'n', 'o', ',', ' ', 't', 'y', 'p', 'o']).1 =
      .denied ['n', 'o', ',', ' ', 't', 'y', 'p', 'o'] ∧
    (runWrite ([['p']] : List (List Char)) [104] [' ', 'n', 'o', ',', ' ', 't', 'y', 'p', 'o']).2 =
      [.readBody, .confirmPrompt] ∧
    containsB [' ', 'n', 'o', ',', ' ', 't', 'y', 'p', 'o']
      (hintDenied ['n', 'o', ',', ' ', 't', 'y', 'p', 'o']) = false := by
  decide

/-- C9 (evaluating the code at the failing input): with more than one
argument the write handler fails with the unexpected-arg error before the
body is read, the confirmation prompt is issued, or any file is touched;
but with zero arguments it reads the body and then performs the
out-of-range read `cmd.args[0]` (a runtime panic), so the access is not in
bounds for every argument count. -/
theorem c9_write_arg_bounds :
    (∀ (a0 a1 : List Char) (rest : List (List Char)) (body : List Nat) (reply : List Char),
      runWrite (a0 :: a1 :: rest) body reply = (.argError a1, [])) ∧
    (∀ (body : List Nat) (reply : List Char),
      runWrite [] body reply = (.panicOOB, [.readBody])) :=
  ⟨fun _ _ _ _ _ => rfl, fun _ _ => rfl⟩

/-- C10 (amended): a confirmation reply is treated as approval exactly
when its whitespace-trimmed form is one of `y`, `yes`, `ok`; the preserved
reply text is the trimmed reply, except that a reply with no fields
(empty or all whitespace) yields the literal reason `no`. -/
theorem c10_confirm_tokens (reply : List Char) :
    ((Confirmf reply).1 = true ↔
      (trimSpace reply = ['y'] ∨ trimSpace reply = ['y', 'e', 's'] ∨
        trimSpace reply = ['o', 'k'])) ∧
    (Confirmf reply).2 =
      (if fieldsEmpty (trimSpace reply) then ['n', 'o'] else trimSpace reply) := by
  by_cases hf : fieldsEmpty (trimSpace reply) = true
  · have h1 : trimSpace reply ≠ ['y'] := by
      intro hx; rw [hx] at hf; exact absurd hf (by decide)
    have h2 : trimSpace reply ≠ ['y', 'e', 's'] := by
      intro hx; rw [hx] at hf; exact absurd hf (by decide)
    have h3 : trimSpace reply ≠ ['o', 'k'] := by
      intro hx; rw [hx] at hf; exact absurd hf (by decide)
    have hc : Confirmf reply = (false, ['n', 'o']) := by
      simp [Confirmf, hf]
    rw [hc, if_pos hf]
    simp [h1, h2, h3]
  · have hf' : fieldsEmpty (trimSpace reply) = false := by
      revert hf; cases fieldsEmpty (trimSpace reply) <;> simp
    by_cases haff : trimSpace reply = ['y'] ∨ trimSpace reply = ['y', 'e', 's'] ∨
        trimSpace reply = ['o', 'k']
    · have hc : Confirmf reply = (true, trimSpace reply) := by
        simp [Confirmf, hf', haff]
      rw [hc, if_neg (by simp [hf'])]
      simp [haff]
    · have hc : Confirmf reply = (false, trimSpace reply) := by
        simp [Confirmf, hf', haff]
      rw [hc, if_neg (by simp [hf'])]
      simp [haff]

/-- Counterexample to C10 as stated: the reply ` yes` (leading space) is
not one of the affirmative tokens, yet it is treated as approval, because
the code trims whitespace before comparing. -/
theorem c10_counterexample :
    (Confirmf [' ', 'y', 'e', 's']).1 = true ∧
    [' ', 'y', 'e', 's'] ≠ ['y'] ∧ [' ', 'y', 'e', 's'] ≠ ['y', 'e', 's'] ∧
    [' ', 'y', 'e', 's'] ≠ ['o', 'k'] := by
  decide
